import Mathlib

/-!
Verification development for the container-inspector library.

This file gives a shallow embedding, in Lean, of the core pure logic of the
`container_inspector` Python package (modules `utils.py`, `rootfs.py`,
`distro.py`, `image.py`) and proves or refutes the specified properties of
the whiteout scanner, the safe tar extractor, the docker/OCI image loaders,
the history-to-layer alignment, the filesystem-root finder and the
os-release parser.

Conventions of the embedding:
- Python strings are Lean `String`; all operations on them are implemented
  over `String.data` (`List Char`) by structural recursion so that every
  definition evaluates inside the kernel.
- The filesystem is an explicit finite map from path strings to file
  entries; `os.walk` is an explicit list of `(top, dirs, files)` triples,
  exactly the shape the repository itself uses for its injectable
  `walker` test doubles.
- SHA-256 is an abstract parameter `hash : List Nat → String`; nothing in
  the verified logic depends on properties of the hash function.
- Python exceptions are `Except String`.
-/

namespace ContainerInspector

/-! ## Python string primitives (modelled over `List Char`) -/

/-- Lower-case one ASCII character, as Python `str.lower` does on ASCII. -/
def charLower (c : Char) : Char :=
  if 'A' ≤ c ∧ c ≤ 'Z' then Char.ofNat (c.toNat + 32) else c

/-- Python `str.lower` (ASCII fragment, which is all the code uses). -/
def strLower (s : String) : String := ⟨s.data.map charLower⟩

/-- Boolean prefix test on char lists. -/
def prefixChars : List Char → List Char → Bool
  | [], _ => true
  | _ :: _, [] => false
  | p :: ps, c :: cs => p == c && prefixChars ps cs

/-- Python `str.startswith`. -/
def pyStartsWith (s pre : String) : Bool := prefixChars pre.data s.data

/-- Python `str.endswith` for a single character. -/
def pyEndsWithChar (s : String) (ch : Char) : Bool :=
  match s.data.reverse with
  | [] => false
  | c :: _ => c == ch

/-- Python `str.lstrip(ch)`. -/
def pyLstrip (s : String) (ch : Char) : String := ⟨s.data.dropWhile (fun c => c == ch)⟩

/-- Python `str.rstrip(ch)`. -/
def pyRstrip (s : String) (ch : Char) : String :=
  ⟨(s.data.reverse.dropWhile (fun c => c == ch)).reverse⟩

/-- Python `str.strip(ch)`. -/
def pyStrip (s : String) (ch : Char) : String := pyRstrip (pyLstrip s ch) ch

/-- Python `str.split("/")` on the underlying char list. -/
def splitSlash : List Char → List (List Char)
  | [] => [[]]
  | c :: rest =>
      match splitSlash rest with
      | [] => [[c]]
      | s :: ss => if c == '/' then [] :: s :: ss else (c :: s) :: ss

/-- Python `path.split("/")` returning strings. -/
def pySplitOnSlash (s : String) : List String := (splitSlash s.data).map (fun cs => ⟨cs⟩)

/-- Concatenation of a list of strings with no separator: Python
`"".join(ws)`. -/
def strConcat (ws : List String) : String := ws.foldl (fun a b => a ++ b) ""

/-- Python `str.replace(pat, rep)` (all occurrences, left to right), with the
recursion made structural through a fuel argument; `pyReplace` supplies
enough fuel.  An empty pattern is returned unchanged (the library never
calls it that way). -/
def replaceFuel : Nat → List Char → List Char → List Char → List Char
  | 0, cs, _, _ => cs
  | _ + 1, [], _, _ => []
  | fuel + 1, c :: rest, pat, rep =>
      if prefixChars pat (c :: rest) then
        rep ++ replaceFuel fuel ((c :: rest).drop pat.length) pat rep
      else
        c :: replaceFuel fuel rest pat rep

/-- Python `s.replace(pat, rep)`. -/
def pyReplace (s pat rep : String) : String :=
  if pat.data.isEmpty then s
  else ⟨replaceFuel s.data.length s.data pat.data rep.data⟩

/-- Last-occurrence split: returns `(before, after)` around the last
occurrence of `pat` in `cs`, or `none` when `pat` does not occur.  This is
the engine of Python `str.rpartition`. -/
def rpartitionChars : List Char → List Char → Option (List Char × List Char)
  | [], pat => if pat.isEmpty then some ([], []) else none
  | c :: rest, pat =>
      match rpartitionChars rest pat with
      | some (b, a) => some (c :: b, a)
      | none =>
          if prefixChars pat (c :: rest) then some ([], (c :: rest).drop pat.length)
          else none

/-- Python `str.rpartition(sep)`: `(head, sep, tail)` at the last occurrence
of `sep`, or `("", "", s)` when absent. -/
def pyRpartition (s sep : String) : String × String × String :=
  match rpartitionChars s.data sep.data with
  | some (b, a) => (⟨b⟩, sep, ⟨a⟩)
  | none => ("", "", s)

/-! ## POSIX path helpers (`os.path` on a POSIX system) -/

/-- Python `os.path.basename`: the part after the last `/`. -/
def os_path_basename (p : String) : String :=
  ⟨(p.data.reverse.takeWhile (fun c => c != '/')).reverse⟩

/-- Python `os.path.dirname`: the part before the last `/`, with trailing
slashes stripped unless the result is all slashes. -/
def os_path_dirname (p : String) : String :=
  let name := p.data.reverse.takeWhile (fun c => c != '/')
  let head := p.data.take (p.data.length - name.length)
  if head.isEmpty || head.all (fun c => c == '/') then ⟨head⟩
  else ⟨(head.reverse.dropWhile (fun c => c == '/')).reverse⟩

/-- Python `os.path.join(a, b)` for two components (POSIX rules). -/
def os_path_join (a b : String) : String :=
  if pyStartsWith b "/" then b
  else if a == "" || pyEndsWithChar a '/' then a ++ b
  else a ++ "/" ++ b

/-- The stem part of Python `os.path.splitext(basename)[0]`: split off the
extension at the last dot, provided some non-dot character precedes it in
the basename. -/
def splitextStem (b : String) : String :=
  match rpartitionChars b.data ['.'] with
  | some (before, _) => if before.any (fun c => c != '.') then ⟨before⟩ else b
  | none => b

/-! ## rootfs.py — whiteout markers and squashing -/

/-- Source constant `WHITEOUT_EXPLICIT_PREFIX = '.wh.'` from `rootfs.py`
(renamed here). -/
def WHITEOUT_EXPLICIT_MARK : String := ".wh."

/-- Source constant `WHITEOUT_OPAQUE_PREFIX = '.wh..wh.opq'` from
`rootfs.py` (renamed here).  Note the literal spelled in the source has a
single dot before `opq`. -/
def WHITEOUT_OPAQUE_MARK : String := ".wh..wh.opq"

/-- Embedding of `rootfs.get_whiteable_path`: the path whited out by a
marker file, or `none` when the path is not a whiteout marker. -/
def get_whiteable_path (path : String) : Option String :=
  let file_name := os_path_basename path
  let parent_dir := os_path_dirname path
  if file_name == WHITEOUT_OPAQUE_MARK then
    -- Opaque whiteouts mean the whole parent directory should be removed
    some parent_dir
  else if pyStartsWith file_name WHITEOUT_EXPLICIT_MARK then
    -- Explicit, file-only whiteout
    let real_file_name := (pyRpartition file_name WHITEOUT_EXPLICIT_MARK).2.2
    some (os_path_join parent_dir real_file_name)
  else
    none

/-- One `os.walk` triple: `(top, dirs, files)`. -/
abbrev WalkEntry : Type := String × List String × List String

/-- Embedding of `rootfs.find_whiteouts`: pairs of (marker file location,
whiteable path relative to the root).  The walk is passed explicitly, just
as the source's injectable `walker` argument is in its tests. -/
def find_whiteouts (root_location : String) (walk : List WalkEntry) :
    List (String × String) :=
  walk.flatMap (fun w =>
    (w.2.2).filterMap (fun fil =>
      let whiteout_marker_loc := os_path_join w.1 fil
      match get_whiteable_path whiteout_marker_loc with
      | some whiteable_path =>
          some (whiteout_marker_loc, pyStrip (pyReplace whiteable_path root_location "") '/')
      | none => none))

/-- True when path `p` is equal to `w` or lies strictly underneath the
directory `w`; this is what deleting `w` recursively removes
(`commoncode.fileutils.delete` deletes a file or a whole directory tree). -/
def path_is_under (p w : String) : Bool := p == w || pyStartsWith p (w ++ "/")

/-- One iteration of the layer loop of `rootfs.rebuild_rootfs`, acting on
rootfs trees represented as lists of relative file paths: find the layer's
whiteouts, delete each whiteable path from the work-in-progress rootfs and
each marker from the extracted layer, then copy the surviving layer files
over the rootfs (`copytree` overwrite-merge). -/
def rebuild_rootfs_step (target : List String) (extracted_loc : String)
    (layer_files : List String) (walk : List WalkEntry) : List String :=
  let whiteouts := find_whiteouts extracted_loc walk
  let target' := target.filter (fun p =>
    !(whiteouts.any (fun m => path_is_under p m.2)))
  let survivors := layer_files.filter (fun p =>
    !(whiteouts.any (fun m => os_path_join extracted_loc p == m.1)))
  target' ++ survivors.filter (fun p => !(target'.contains p))

/-- Source constant `LINUX_PATHS` from `rootfs.py`. -/
def LINUX_PATHS : List String :=
  ["usr", "etc", "var", "home", "sbin", "sys", "lib", "bin", "vmlinuz"]

/-- Source constant `WINDOWS_PATHS` from `rootfs.py`. -/
def WINDOWS_PATHS : List String :=
  ["Program Files", "Program Files(x86)", "Windows", "ProgramData",
   "Users", "$Recycle.Bin", "PerfLogs", "System Volume Information"]

/-- Model of the external `commoncode.paths.split`: split a POSIX path into
segments, ignoring leading and trailing slashes. -/
def paths_split (p : String) : List String :=
  let p := pyStrip p '/'
  if p == "" then [] else pySplitOnSlash p

/-- Embedding of `rootfs.compute_path_depth`: number of path segments of
`dir_path` below `root_path`. -/
def compute_path_depth (root_path dir_path : String) : Nat :=
  if dir_path == "" then 0
  else
    let dir_path := pyStrip dir_path '/'
    if root_path == "" then (paths_split dir_path).length
    else
      let root_path := pyStrip root_path '/'
      let suffix : String := ⟨dir_path.data.drop root_path.data.length⟩
      (paths_split suffix).length

/-- Python `len(set(dirs + files) & root_paths)` for one walk entry: the
number of distinct entry names that belong to `root_paths`. -/
def root_matches (root_paths : List String) (w : WalkEntry) : Nat :=
  ((w.2.1 ++ w.2.2).eraseDups.filter (fun n => root_paths.contains n)).length

/-- Embedding of `rootfs.find_root`: first directory of the walk holding at
least `min_paths` names from `root_paths`.  Note that when `max_depth` is
non-zero and the walk reaches a directory deeper than `max_depth`, the
source returns `None` immediately, aborting the whole scan. -/
def find_root (location : String) (max_depth : Nat) (root_paths : List String)
    (min_paths : Nat) (walker : List WalkEntry) : Option String :=
  match walker with
  | [] => none
  | w :: rest =>
      if max_depth != 0 && decide (compute_path_depth location w.1 > max_depth) then
        none
      else if root_matches root_paths w ≥ min_paths then
        some w.1
      else
        find_root location max_depth root_paths min_paths rest

/-! ## utils.py — safe tar extraction -/

/-- Embedding of `utils.ExtractEvent` (a NamedTuple of type, source path and
message). -/
structure ExtractEvent where
  type : String
  source : String
  message : String
deriving DecidableEq

/-- Event type constants from `utils.ExtractEvent`. -/
def ExtractEvent.INFO : String := "info"

/-- Event type constant `warning`. -/
def ExtractEvent.WARNING : String := "warning"

/-- Event type constant `error`. -/
def ExtractEvent.ERROR : String := "error"

/-- Tar member kinds as distinguished by the `tarfile.TarInfo` predicates the
extractor queries. -/
inductive TarKind where
  | reg
  | dir
  | sym
  | lnk
  | chr
  | blk
  | fifo
deriving DecidableEq

/-- One member of a tar archive, with the fields `extract_tar` looks at. -/
structure TarEntry where
  name : String
  kind : TarKind
  sparse : Bool
  linkname : String
deriving DecidableEq

/-- Python `tarinfo.isdev() or tarinfo.ischr() or tarinfo.isblk() or
tarinfo.isfifo()` (the first already covers the other three). -/
def TarEntry.isdev (e : TarEntry) : Bool :=
  e.kind == TarKind.chr || e.kind == TarKind.blk || e.kind == TarKind.fifo

/-- Python `tarinfo.islnk() or tarinfo.issym()`. -/
def TarEntry.islink (e : TarEntry) : Bool :=
  e.kind == TarKind.lnk || e.kind == TarKind.sym

/-- Embedding of `utils.is_relative_path`: true when some `/`-separated
component of the path equals `..`. -/
def is_relative_path (path : String) : Bool :=
  (splitSlash path.data).any (fun name => name == ['.', '.'])

/-- The body of the member loop of `utils.extract_tar` for one tar member:
returns the events it appends and the target-relative paths it extracts.
Mode forcing and the per-member `try/except` (OS-level failures) have no
counterpart in this pure model. -/
def process_entry (location : String) (skip_symlinks : Bool) (e : TarEntry) :
    List ExtractEvent × List String :=
  if e.isdev || e.sparse then
    ([{ type := ExtractEvent.INFO, source := e.name,
        message := "skipping unsupported " ++ e.name ++
          " file type: block, chr, dev or sparse file" }], [])
  else if is_relative_path e.name then
    ([{ type := ExtractEvent.WARNING, source := e.name,
        message := location ++ ": skipping unsupported " ++ e.name ++
          " with relative path." }], [])
  else if skip_symlinks && e.islink then
    -- the source builds a message here but only traces it: no event is
    -- appended to the returned list
    ([], [])
  else if pyStartsWith e.name "/" then
    ([{ type := ExtractEvent.WARNING, source := e.name,
        message := location ++ ": absolute path name: " ++ e.name ++
          " transformed in relative path." }], [pyLstrip e.name '/'])
  else
    ([], [e.name])

/-- Embedding of `utils.extract_tar`: the ordered event list and the list of
target-relative paths extracted into `target_dir`. -/
def extract_tar (location : String) (entries : List TarEntry)
    (skip_symlinks : Bool) : List ExtractEvent × List String :=
  match entries with
  | [] => ([], [])
  | e :: rest =>
      let r := process_entry location skip_symlinks e
      let rs := extract_tar location rest skip_symlinks
      (r.1 ++ rs.1, r.2 ++ rs.2)

/-- Embedding of `utils.extract_tar_with_symlinks`. -/
def extract_tar_with_symlinks (location : String) (entries : List TarEntry) :
    List ExtractEvent × List String :=
  extract_tar location entries false

/-! ## distro.py — os-release parsing

`parse_os_release` dequotes values with the Python standard library call
`shlex.split` (POSIX mode).  The state machine below models that lexer for
single-line inputs: whitespace separates words; single quotes are literal
runs; double quotes allow `\` to escape only `\` and `"`; a backslash
outside quotes escapes the next character; an unterminated quote or a
trailing backslash raises (`none`). -/

/-- Lexer modes of the shlex model: between words, inside a word, inside
single quotes, inside double quotes. -/
inductive ShMode where
  | sp
  | word
  | squo
  | dquo
deriving DecidableEq

/-- Characters `shlex` treats as whitespace. -/
def shWhitespace (c : Char) : Bool :=
  c == ' ' || c == '\t' || c == '\r' || c == '\n'

/-- Core loop of the POSIX `shlex.split` model.  `tok` is the word being
accumulated, `quoted` records whether it saw a quote (so that empty quoted
words are emitted), `acc` the words already emitted, in reverse. -/
def shlexAux : List Char → ShMode → String → Bool → List String →
    Option (List String)
  | [], ShMode.sp, _, _, acc => some acc.reverse
  | [], ShMode.word, tok, quoted, acc =>
      if tok != "" || quoted then some (tok :: acc).reverse else some acc.reverse
  | [], ShMode.squo, _, _, _ => none
  | [], ShMode.dquo, _, _, _ => none
  | c :: rest, ShMode.sp, _, _, acc =>
      if shWhitespace c then shlexAux rest ShMode.sp "" false acc
      else if c == '\\' then
        match rest with
        | [] => none
        | d :: rest2 => shlexAux rest2 ShMode.word (String.singleton d) false acc
      else if c == '\'' then shlexAux rest ShMode.squo "" true acc
      else if c == '"' then shlexAux rest ShMode.dquo "" true acc
      else shlexAux rest ShMode.word (String.singleton c) false acc
  | c :: rest, ShMode.word, tok, quoted, acc =>
      if shWhitespace c then
        if tok != "" || quoted then shlexAux rest ShMode.sp "" false (tok :: acc)
        else shlexAux rest ShMode.sp "" false acc
      else if c == '\\' then
        match rest with
        | [] => none
        | d :: rest2 => shlexAux rest2 ShMode.word (tok.push d) quoted acc
      else if c == '\'' then shlexAux rest ShMode.squo tok true acc
      else if c == '"' then shlexAux rest ShMode.dquo tok true acc
      else shlexAux rest ShMode.word (tok.push c) quoted acc
  | c :: rest, ShMode.squo, tok, _, acc =>
      if c == '\'' then shlexAux rest ShMode.word tok true acc
      else shlexAux rest ShMode.squo (tok.push c) true acc
  | c :: rest, ShMode.dquo, tok, _, acc =>
      if c == '"' then shlexAux rest ShMode.word tok true acc
      else if c == '\\' then
        match rest with
        | [] => none
        | d :: rest2 =>
            if d == '"' || d == '\\' then shlexAux rest2 ShMode.dquo (tok.push d) true acc
            else shlexAux rest2 ShMode.dquo ((tok.push '\\').push d) true acc
      else shlexAux rest ShMode.dquo (tok.push c) true acc

/-- Model of Python `shlex.split(s)` in POSIX mode; `none` models the
`ValueError` raised on unbalanced quoting. -/
def shlex_split (s : String) : Option (List String) :=
  shlexAux s.data ShMode.sp "" false []

/-- Insert-or-replace into an association list, mirroring assignment into a
Python dict: an existing key keeps its position but takes the new value, a
new key is appended. -/
def dictUpsert (acc : List (String × String)) (k v : String) :
    List (String × String) :=
  match acc with
  | [] => [(k, v)]
  | (k2, v2) :: rest =>
      if k2 == k then (k2, v) :: rest else (k2, v2) :: dictUpsert rest k v

/-- Python `str.strip()` with no argument (whitespace). -/
def pyStripWs (s : String) : String :=
  ⟨((s.data.dropWhile shWhitespace).reverse.dropWhile shWhitespace).reverse⟩

/-- Python `line.partition('=')` restricted to the key and value parts:
`(before, after)` around the first `=`, or `(line, "")` when there is
none. -/
def partitionEq (cs : List Char) : List Char × List Char :=
  match cs with
  | [] => ([], [])
  | c :: rest =>
      if c == '=' then ([], rest)
      else
        let r := partitionEq rest
        (c :: r.1, r.2)

/-- Classification of one line of an os-release file: `none` for blank and
`#`-comment lines, otherwise the stripped key and the raw value text. -/
def os_release_line (line : String) : Option (String × String) :=
  let t := pyStripWs line
  if t == "" || pyStartsWith t "#" then none
  else
    let kv := partitionEq t.data
    some (pyStripWs ⟨kv.1⟩, ⟨kv.2⟩)

/-- Embedding of `distro.parse_os_release` over the file's lines: ignore
blank and `#` lines, split each at the first `=`, shlex-dequote the value
and join the words, and build the mapping with dict semantics.  `none`
models a `ValueError` escaping from `shlex.split`. -/
def parse_os_release_aux (lines : List String) (acc : List (String × String)) :
    Option (List (String × String)) :=
  match lines with
  | [] => some acc
  | line :: rest =>
      match os_release_line line with
      | none => parse_os_release_aux rest acc
      | some (key, value) =>
          match shlex_split value with
          | none => none
          | some ws => parse_os_release_aux rest (dictUpsert acc key (strConcat ws))

/-- Embedding of `distro.parse_os_release` (file contents as lines). -/
def parse_os_release (lines : List String) : Option (List (String × String)) :=
  parse_os_release_aux lines []

/-- Mapping lookup (Python `d[k]` on the parsed mapping). -/
def dictLookup (m : List (String × String)) (k : String) : Option String :=
  match m with
  | [] => none
  | (k2, v) :: rest => if k2 == k then some v else dictLookup rest k

/-! ## JSON values and Python dict operations (for image.py) -/

/-- JSON values as loaded by `utils.load_json`; objects are association
lists in insertion order (Python dicts). -/
inductive Json where
  | str : String → Json
  | num : Int → Json
  | bool : Bool → Json
  | null : Json
  | arr : List Json → Json
  | obj : List (String × Json) → Json

/-- Association-list insert with Python dict semantics: an existing key
keeps its position but takes the new value. -/
def jsonUpsert (acc : List (String × Json)) (k : String) (v : Json) :
    List (String × Json) :=
  match acc with
  | [] => [(k, v)]
  | (k2, v2) :: rest =>
      if k2 == k then (k2, v) :: rest else (k2, v2) :: jsonUpsert rest k v

/-- Build a Python dict from pairs, later assignments to the same key
overriding earlier ones. -/
def jsonDictOf (ps : List (String × Json)) : List (String × Json) :=
  ps.foldl (fun acc p => jsonUpsert acc p.1 p.2) []

/-- Python `d.get(k)` / `d[k]` lookup on an object's pair list. -/
def pyGet (kvs : List (String × Json)) (k : String) : Option Json :=
  match kvs with
  | [] => none
  | (k2, v) :: rest => if k2 == k then some v else pyGet rest k

/-- Python truthiness of a JSON value. -/
def Json.truthy : Json → Bool
  | Json.str s => s != ""
  | Json.num n => n != 0
  | Json.bool b => b
  | Json.null => false
  | Json.arr xs => !xs.isEmpty
  | Json.obj kvs => !kvs.isEmpty

mutual

/-- Embedding of `utils.lower_keys`: lower-case every key of a mapping,
recursing into values that are themselves mappings (values inside lists are
not visited, exactly as in the source). -/
def lower_keys : Json → Json
  | Json.obj kvs => Json.obj (jsonDictOf (lower_keys_pairs kvs))
  | j => j

/-- Helper of `lower_keys`: lower-case the keys of a pair list and recurse
into object values. -/
def lower_keys_pairs : List (String × Json) → List (String × Json)
  | [] => []
  | (k, v) :: rest => (strLower k, lower_keys v) :: lower_keys_pairs rest

end

/-! ## utils.py — hashing, ids and the filesystem model -/

/-- One file of the modelled filesystem: its raw bytes, and optional parsed
views used by `load_json` and `tarfile.open`. -/
structure FileEntry where
  bytes : List Nat
  json : Option Json
  tar : Option (List TarEntry)

/-- The modelled filesystem: a finite map from paths to files plus the set
of directories. -/
structure PyFS where
  files : List (String × FileEntry)
  dirs : List String

/-- Lookup helper on a raw path-to-file list. -/
def fsFindIn (l : List (String × FileEntry)) (p : String) : Option FileEntry :=
  match l with
  | [] => none
  | (q, e) :: rest => if q == p then some e else fsFindIn rest p

/-- Lookup of a path in the modelled filesystem. -/
def fsFind (fs : PyFS) (p : String) : Option FileEntry :=
  fsFindIn fs.files p

/-- Python `os.path.exists`. -/
def os_path_exists (fs : PyFS) (p : String) : Bool := (fsFind fs p).isSome

/-- Python `os.path.isdir`. -/
def os_path_isdir (fs : PyFS) (p : String) : Bool := fs.dirs.contains p

/-- Embedding of `utils.sha256_digest`: the digest of the file's bytes, or
`none` when the location is empty or missing.  The SHA-256 function itself
is the abstract parameter `hash`. -/
def sha256_digest (hash : List Nat → String) (fs : PyFS) (location : String) :
    Option String :=
  if location != "" then
    match fsFind fs location with
    | some e => some (hash e.bytes)
    | none => none
  else none

/-- Embedding of `utils.load_json`; `none` models the exception raised for
a missing or unparsable file. -/
def load_json (fs : PyFS) (location : String) : Option Json :=
  match fsFind fs location with
  | some e => e.json
  | none => none

/-- Embedding of `utils.as_bare_id`: strip a leading `sha256:` checksum
algorithm prefix when present. -/
def as_bare_id (s : String) : String :=
  if s == "" then s
  else if pyStartsWith s "sha256:" then ⟨s.data.drop 7⟩
  else s

/-- Names bound at the top level of module `container_inspector.utils`
(from `src/container_inspector/utils.py`): the attributes available on
`utils` when `image.py` does `from container_inspector import utils`. -/
def container_inspector_utils_defs : List String :=
  ["load_json", "get_command", "sha256_digest", "as_bare_id", "get_labels",
   "ExtractEvent", "is_relative_path", "extract_tar",
   "extract_tar_with_symlinks", "lower_keys"]

/-- The attribute name `Image.extract` looks up on the `utils` module
(`image.py`, `utils.extract_tar_keeping_symlinks(...)`). -/
def image_extract_callee : String := "extract_tar_keeping_symlinks"

/-! ## image.py — Layer and Image records -/

/-- Embedding of `image.Layer` with the attributes the verified claims
touch.  `sha256`, `layer_id` and the history-derived fields are optional,
mirroring Python `None` defaults. -/
structure LayerM where
  extracted_location : Option String
  archive_location : String
  sha256 : Option String
  layer_id : Option String
  size : Nat
  is_empty_layer : Bool
  author : Option Json
  created : Option Json
  created_by : Option Json
  comment : Option Json

/-- Truthiness of an optional Python string (`None` and `''` are falsy). -/
def truthyOptStr : Option String → Bool
  | none => false
  | some s => s != ""

/-- Embedding of `Layer.__attrs_post_init__` (constructing a `Layer`):
require `archive_location`, run `set_sha256`, copy it to `layer_id`, and
take the archive size from disk (`os.path.getsize` raises on a missing
file, modelled as an error). -/
def Layer_init (hash : List Nat → String) (fs : PyFS)
    (archive_location : String) (sha256 : Option String) :
    Except String LayerM :=
  if archive_location == "" then
    .error "TypeError: Layer.archive_location is a required argument"
  else
    let sha := if !truthyOptStr sha256 then sha256_digest hash fs archive_location
               else sha256
    match fsFind fs archive_location with
    | none => .error ("OSError: no such file: " ++ archive_location)
    | some e =>
        .ok { extracted_location := none, archive_location := archive_location,
              sha256 := sha, layer_id := sha, size := e.bytes.length,
              is_empty_layer := false, author := none, created := none,
              created_by := none, comment := none }

/-- The config fields shared by images and layers
(`image.ConfigMixin`). -/
structure ConfigFields where
  docker_version : Option Json
  os : Option Json
  os_version : Option Json
  architecture : Option Json
  variant : Option Json
  created : Option Json
  author : Option Json
  comment : Option Json
  labels : List (String × Json)

/-- Read an optional sub-mapping: Python `data.get(k, {})` followed by
attribute access that requires a mapping (a present non-mapping value makes
the source raise). -/
def getSubDict (kvs : List (String × Json)) (k : String) :
    Except String (List (String × Json)) :=
  match pyGet kvs k with
  | none => .ok []
  | some (Json.obj l) => .ok l
  | some _ => .error ("AttributeError: value of " ++ k ++ " is not a mapping")

/-- Lexicographic order on char lists by code point (Python string
comparison). -/
def charListLt : List Char → List Char → Bool
  | [], [] => false
  | [], _ :: _ => true
  | _ :: _, [] => false
  | a :: as, b :: bs =>
      if Nat.blt a.toNat b.toNat then true
      else if Nat.blt b.toNat a.toNat then false
      else charListLt as bs

/-- Python `a < b` on strings. -/
def strLt (a b : String) : Bool := charListLt a.data b.data

/-- Stable insertion into a key-sorted pair list (engine of Python
`sorted` on dict items whose keys are unique). -/
def insertSorted (p : String × Json) : List (String × Json) →
    List (String × Json)
  | [] => [p]
  | q :: rest =>
      if strLt p.1 q.1 then p :: q :: rest else q :: insertSorted p rest

/-- Python `sorted` on dict items with unique keys. -/
def sortPairs (l : List (String × Json)) : List (String × Json) :=
  l.foldl (fun acc p => insertSorted p acc) []

/-- The `labels` sub-mapping of a config mapping: Python
`lower_keys(config).get('labels', {}) or {}`, requiring a mapping when
truthy. -/
def labelsOf (kvs : List (String × Json)) : Except String (List (String × Json)) :=
  let lowered := match lower_keys (Json.obj kvs) with
    | Json.obj l => l
    | _ => []
  match pyGet lowered "labels" with
  | none => .ok []
  | some v =>
      if !v.truthy then .ok []
      else match v with
        | Json.obj l => .ok l
        | _ => .error "AttributeError: labels is not a mapping"

/-- Embedding of `utils.get_labels`: merge the labels of `config` and
`container_config` (the latter overriding) and sort by key. -/
def get_labels (config container_config : List (String × Json)) :
    Except String (List (String × Json)) :=
  (labelsOf config).bind fun l1 =>
  (labelsOf container_config).map fun l2 =>
  sortPairs (jsonDictOf (l1 ++ l2))

/-- Embedding of `ConfigMixin.from_config_data`: lower the keys of a config
data mapping and pick out the shared config fields. -/
def from_config_data (data : Json) : Except String ConfigFields :=
  match lower_keys data with
  | Json.obj kvs =>
      (getSubDict kvs "config").bind fun config =>
      (getSubDict kvs "container_config").bind fun container_config =>
      (get_labels config container_config).map fun labels =>
      { docker_version := pyGet kvs "docker_version"
        os := pyGet kvs "os"
        os_version := pyGet kvs "os.version"
        architecture := pyGet kvs "architecture"
        variant := pyGet kvs "variant"
        created := pyGet kvs "created"
        author := pyGet config "author"
        comment := pyGet kvs "comment"
        labels := labels }
  | _ => .error "AttributeError: config data is not a mapping"

/-- Embedding of `image.Image` with the attributes the verified claims
touch. -/
structure ImageM where
  extracted_location : String
  archive_location : Option String
  sha256 : Option String
  image_format : String
  image_id : String
  config_digest : String
  tags : Json
  layers : List LayerM
  history : Json
  config : ConfigFields

/-- Immediate child name of `dir` on the path `p`, if any (engine of
`os.listdir` over the modelled filesystem). -/
def childName (dir p : String) : Option String :=
  let d := if pyEndsWithChar dir '/' then dir else dir ++ "/"
  if pyStartsWith p d then
    let rest : String := ⟨p.data.drop d.data.length⟩
    if rest != "" && !(rest.data.contains '/') then some rest else none
  else none

/-- Order-preserving deduplication. -/
def dedup (seen : List String) : List String → List String
  | [] => []
  | s :: rest => if seen.contains s then dedup seen rest else s :: dedup (s :: seen) rest

/-- Python `os.listdir` over the modelled filesystem. -/
def os_listdir (fs : PyFS) (dir : String) : List String :=
  dedup [] (((fs.files.map (fun p => p.1)) ++ fs.dirs).filterMap (childName dir))

/-- Embedding of `Image.find_format`: `docker` when `manifest.json` is
present, `oci` when `blobs`, `index.json` and `oci-layout` all are. -/
def find_format (fs : PyFS) (extracted_location : String) : Option String :=
  let files := os_listdir fs extracted_location
  if ["manifest.json"].all (fun c => files.contains c) then some "docker"
  else if ["blobs", "index.json", "oci-layout"].all (fun c => files.contains c) then
    some "oci"
  else none

/-- Embedding of `Image.__attrs_post_init__` (constructing an `Image`):
require `extracted_location`, run `set_sha256` on the optional archive, and
fall back to `find_format` when no format is given. -/
def Image_init (hash : List Nat → String) (fs : PyFS) (image_format : String)
    (extracted_location : String) (archive_location : Option String)
    (image_id config_digest : String) (tags : Json) (layers : List LayerM)
    (history : Json) (config : ConfigFields) : Except String ImageM :=
  if extracted_location == "" then
    .error "TypeError: Image.extracted_location is a required argument"
  else
    let sha := if truthyOptStr archive_location then
        sha256_digest hash fs (archive_location.getD "")
      else none
    let fmt := if image_format == "" then (find_format fs extracted_location).getD ""
               else image_format
    .ok { extracted_location := extracted_location,
          archive_location := archive_location, sha256 := sha,
          image_format := fmt, image_id := image_id,
          config_digest := config_digest, tags := tags, layers := layers,
          history := history, config := config }

/-! ## image.py — history-to-layer assignment -/

/-- Python `setattr(layer, field, value)` for the four history fields. -/
def set_history_field (l : LayerM) (field : String) (v : Json) : LayerM :=
  if field == "author" then { l with author := some v }
  else if field == "created" then { l with created := some v }
  else if field == "created_by" then { l with created_by := some v }
  else if field == "comment" then { l with comment := some v }
  else l

/-- One iteration of the field loop of `assign_history_to_layers`:
`value = hist.get(field); if value: setattr(layer, field, value)`. -/
def assign_field (h2 : List (String × Json)) (l : LayerM) (field : String) :
    LayerM :=
  match pyGet h2 field with
  | some v => if v.truthy then set_history_field l field v else l
  | none => l

/-- The tuple `fields` of `assign_history_to_layers`. -/
def history_fields : List String := ["author", "created", "created_by", "comment"]

/-- Copy the four history fields of one history entry onto one layer:
the entry's keys are lower-cased and only truthy values are assigned
(the loop body of `assign_history_to_layers`). -/
def assign_fields (h : List (String × Json)) (l : LayerM) : LayerM :=
  let h2 := match lower_keys (Json.obj h) with
    | Json.obj kvs => kvs
    | _ => []
  history_fields.foldl (assign_field h2) l

/-- Walk the layer list assigning the filtered history entries onto the
non-empty layers in order, mirroring `zip(non_empty_history,
non_empty_layers)` together with the in-place `setattr` mutation. -/
def assign_zip : List (List (String × Json)) → List LayerM → List LayerM
  | _, [] => []
  | hs, l :: ls =>
      if l.is_empty_layer then l :: assign_zip hs ls
      else
        match hs with
        | [] => l :: ls
        | h :: hs2 => assign_fields h l :: assign_zip hs2 ls

/-- Embedding of `image.assign_history_to_layers` for a list of history
entry mappings: when the number of history entries whose `empty_layer` flag
is falsy equals the number of layers that are not empty layers, copy
`author`, `created`, `created_by` and `comment` onto those layers in order;
otherwise return the layers unchanged. -/
def assign_history_to_layers (history : List (List (String × Json)))
    (layers : List LayerM) : List LayerM :=
  if history.isEmpty then layers
  else
    let non_empty_history := history.filter (fun h =>
      !((pyGet h "empty_layer").getD (Json.bool false)).truthy)
    let non_empty_layers_len :=
      (layers.filter (fun l => !l.is_empty_layer)).length
    if non_empty_history.length != non_empty_layers_len then layers
    else assign_zip non_empty_history layers

/-- The history entries whose `empty_layer` flag is falsy (the filtered
list `non_empty_history` of `assign_history_to_layers`). -/
def non_empty_history_of (history : List (List (String × Json))) :
    List (List (String × Json)) :=
  history.filter (fun h => !((pyGet h "empty_layer").getD (Json.bool false)).truthy)

/-- The layers whose `is_empty_layer` flag is false (the filtered list
`non_empty_layers` of `assign_history_to_layers`). -/
def non_empty_layers_of (layers : List LayerM) : List LayerM :=
  layers.filter (fun l => !l.is_empty_layer)

/-- Coerce a JSON history value to a list of entry mappings, modelling how
iterating a non-list or a non-mapping entry makes the source raise. -/
def histDicts : List Json → Except String (List (List (String × Json)))
  | [] => .ok []
  | Json.obj kvs :: rest => (histDicts rest).map (fun t => kvs :: t)
  | _ :: _ => .error "AttributeError: history entry is not a mapping"

/-- The loaders call `assign_history_to_layers` on the raw JSON value of
`config.get('history') or {}`: a falsy value returns the layers unchanged
(the source's `if not history: return`), a list of mappings is assigned,
anything else raises. -/
def assign_history_json (history : Json) (layers : List LayerM) :
    Except String (List LayerM) :=
  if !history.truthy then .ok layers
  else match history with
    | Json.arr hs => (histDicts hs).map (fun hd => assign_history_to_layers hd layers)
    | _ => .error "TypeError: history is not an iterable of mappings"

/-! ## image.py — docker loader -/

/-- Python `value or ''` for an optional JSON value that must then be used
as a string (a truthy non-string raises downstream in the source). -/
def pyStrOrEmpty (v : Option Json) : Except String String :=
  match v with
  | none => .ok ""
  | some (Json.str s) => .ok s
  | some w => if w.truthy then .error "TypeError: expected str" else .ok ""

/-- Read a JSON list whose elements must all be strings. -/
def strListOf : List Json → Except String (List String)
  | [] => .ok []
  | Json.str s :: rest => (strListOf rest).map (fun t => s :: t)
  | _ :: _ => .error "TypeError: expected str element"

/-- Python `value or []` for an optional JSON value used as a list of
strings. -/
def pyStrListOrEmpty (v : Option Json) : Except String (List String) :=
  match v with
  | none => .ok []
  | some (Json.arr xs) => strListOf xs
  | some w => if w.truthy then .error "TypeError: expected list" else .ok []

/-- Effectful map over a list in the `Except` monad, by structural
recursion. -/
def mapExceptList (f : α → Except String β) : List α → Except String (List β)
  | [] => .ok []
  | a :: rest => (f a).bind fun b => (mapExceptList f rest).map (fun t => b :: t)

/-- The location of the config file referenced by one docker manifest
entry: `os.path.join(extracted_location, manifest_config.get('config') or
'')` after key lowering. -/
def docker_config_file_loc (extracted_location : String) (manifest_config : Json) :
    Except String String :=
  match lower_keys manifest_config with
  | Json.obj mc => (pyStrOrEmpty (pyGet mc "config")).map (os_path_join extracted_location)
  | _ => .error "AttributeError: manifest entry is not a mapping"

/-- Navigate a lowered image config to `rootfs.diff_ids`, checking
`rootfs.type == 'layers'` on the way (the middle of
`Image.from_docker_manifest_config`). -/
def docker_rootfs_diff_ids (image_config : List (String × Json)) :
    Except String (List String) :=
  match pyGet image_config "rootfs" with
  | none => .error "KeyError: rootfs"
  | some (Json.obj rootfs) =>
      match pyGet rootfs "type" with
      | none => .error "KeyError: type"
      | some (Json.str rt) =>
          if rt != "layers" then
            .error ("Unknown type for image rootfs: expecting layers and not " ++ rt)
          else
            match pyGet rootfs "diff_ids" with
            | none => .error "KeyError: diff_ids"
            | some (Json.arr ids) => strListOf ids
            | some _ => .error "TypeError: diff_ids is not a list"
      | some _ => .error "Unknown type for image rootfs: expecting layers"
  | some _ => .error "TypeError: rootfs is not a mapping"

/-- Build the `Layer` list from zipped (archive location, bare diff id)
pairs, verifying each on-disk digest when `verify` is set (the layer loop
of `Image.from_docker_manifest_config`). -/
def build_layers (hash : List Nat → String) (fs : PyFS) (verify : Bool) :
    List (String × String) → Except String (List LayerM)
  | [] => .ok []
  | (layer_archive_loc, layer_sha256) :: rest =>
      if verify && (sha256_digest hash fs layer_archive_loc != some layer_sha256) then
        .error ("Layer archive at " ++ layer_archive_loc ++
          " does not match its diff_id: SHA256:" ++ layer_sha256)
      else
        (Layer_init hash fs layer_archive_loc (some layer_sha256)).bind fun l =>
        (build_layers hash fs verify rest).map (fun t => l :: t)

/-- Embedding of `Image.from_docker_manifest_config`: build one `Image`
from one entry of `manifest.json`. -/
def from_docker_manifest_config (hash : List Nat → String) (fs : PyFS)
    (extracted_location : String) (manifest_config : Json)
    (archive_location : Option String) (verify : Bool) :
    Except String ImageM :=
  match lower_keys manifest_config with
  | Json.obj mc =>
      (pyStrOrEmpty (pyGet mc "config")).bind fun config_file =>
      let config_file_loc := os_path_join extracted_location config_file
      if !os_path_exists fs config_file_loc then
        .error ("Invalid configuration. Missing Config file: " ++ config_file_loc)
      else
      let image_id := splitextStem (os_path_basename config_file_loc)
      match sha256_digest hash fs config_file_loc with
      | none => .error ("cannot digest missing config file: " ++ config_file_loc)
      | some config_digest0 =>
      if verify && image_id != as_bare_id config_digest0 then
        .error ("Image config " ++ config_file_loc ++ " SHA256:" ++ image_id ++
          " is not consistent with actual computed value SHA256: " ++ config_digest0)
      else
      let config_digest := "sha256:" ++ image_id
      (pyStrListOrEmpty (pyGet mc "layers")).bind fun layer_paths =>
      let layers_archive_locs := layer_paths.map (os_path_join extracted_location)
      let tags := match pyGet mc "repotags" with
        | some v => if v.truthy then v else Json.arr []
        | none => Json.arr []
      match load_json fs config_file_loc with
      | none => .error ("cannot load config JSON: " ++ config_file_loc)
      | some raw_config =>
      match lower_keys raw_config with
      | Json.obj image_config =>
          (docker_rootfs_diff_ids image_config).bind fun diff_ids =>
          let layers_sha256s := diff_ids.map as_bare_id
          (build_layers hash fs verify (layers_archive_locs.zip layers_sha256s)).bind
            fun layers =>
          let history := match pyGet image_config "history" with
            | some v => if v.truthy then v else Json.obj []
            | none => Json.obj []
          (assign_history_json history layers).bind fun layers2 =>
          (from_config_data (Json.obj image_config)).bind fun cf =>
          Image_init hash fs "docker" extracted_location archive_location
            image_id config_digest tags layers2 history cf
      | _ => .error "AttributeError: config JSON is not a mapping"
  | _ => .error "AttributeError: manifest entry is not a mapping"

/-- Embedding of `Image.get_docker_images_from_dir`. -/
def get_docker_images_from_dir (hash : List Nat → String) (fs : PyFS)
    (extracted_location : String) (archive_location : Option String)
    (verify : Bool) : Except String (List ImageM) :=
  if !os_path_isdir fs extracted_location then
    .error ("Not a directory: " ++ extracted_location)
  else
    let manifest_loc := os_path_join extracted_location "manifest.json"
    if !os_path_exists fs manifest_loc then
      .error ("manifest.json file missing in " ++ extracted_location)
    else match load_json fs manifest_loc with
    | none => .error ("cannot load JSON: " ++ manifest_loc)
    | some (Json.arr entries) =>
        mapExceptList (fun mc =>
          from_docker_manifest_config hash fs extracted_location mc
            archive_location verify) entries
    | some (Json.obj kvs) =>
        if kvs.isEmpty then .ok [] else .error "AttributeError: manifest entry"
    | some (Json.str s) =>
        if s == "" then .ok [] else .error "AttributeError: manifest entry"
    | some _ => .error "TypeError: manifest is not iterable"

/-! ## image.py — OCI loader -/

/-- Embedding of `image.get_oci_blob`: the location of a blob named by its
bare digest, checked for existence and (under `verify`) re-hashed. -/
def get_oci_blob (hash : List Nat → String) (fs : PyFS)
    (extracted_location sha256 : String) (verify : Bool) :
    Except String String :=
  let loc := os_path_join (os_path_join (os_path_join extracted_location "blobs")
    "sha256") sha256
  if !os_path_exists fs loc then .error ("Missing OCI image file " ++ loc)
  else if verify && (sha256_digest hash fs loc != some sha256) then
    .error ("For " ++ loc ++ " on disk SHA256 does not match its expected " ++
      "index SHA256:" ++ sha256)
  else .ok loc

/-- Read the `digest` field of an OCI descriptor mapping as a string. -/
def descriptorDigest (kvs : List (String × Json)) : Except String String :=
  match pyGet kvs "digest" with
  | some (Json.str d) => .ok d
  | some _ => .error "TypeError: digest is not a string"
  | none => .error "KeyError: digest"

/-- Build the OCI `Layer` list from the manifest's `layers` descriptor
list. -/
def build_oci_layers (hash : List Nat → String) (fs : PyFS)
    (extracted_location : String) (verify : Bool) :
    List Json → Except String (List LayerM)
  | [] => .ok []
  | Json.obj layer :: rest =>
      (descriptorDigest layer).bind fun layer_digest =>
      let layer_sha256 := as_bare_id layer_digest
      (get_oci_blob hash fs extracted_location layer_sha256 verify).bind
        fun layer_arch_loc =>
      (Layer_init hash fs layer_arch_loc (some layer_sha256)).bind fun l =>
      (build_oci_layers hash fs extracted_location verify rest).map (fun t => l :: t)
  | _ :: _ => .error "TypeError: layer descriptor is not a mapping"

/-- Build one `Image` from one entry of the OCI index's `manifests` list
(the loop body of `Image.get_oci_images_from_dir`). -/
def oci_image_from_manifest_data (hash : List Nat → String) (fs : PyFS)
    (extracted_location : String) (archive_location : Option String)
    (verify : Bool) (manifest_data : Json) : Except String ImageM :=
  match manifest_data with
  | Json.obj md =>
      match pyGet md "mediatype" with
      | none => .error "KeyError: mediatype"
      | some (Json.str mt) =>
          if mt != "application/vnd.oci.image.manifest.v1+json" then
            .error ("Unsupported OCI index media type " ++ mt)
          else
          (descriptorDigest md).bind fun manifest_digest =>
          let manifest_sha256 := as_bare_id manifest_digest
          (get_oci_blob hash fs extracted_location manifest_sha256 verify).bind
            fun manifest_loc =>
          match load_json fs manifest_loc with
          | none => .error ("cannot load JSON: " ++ manifest_loc)
          | some (Json.obj manifest) =>
              (getSubDict manifest "config").bind fun config_desc =>
              (descriptorDigest config_desc).bind fun config_digest =>
              let config_sha256 := as_bare_id config_digest
              (get_oci_blob hash fs extracted_location config_sha256 verify).bind
                fun config_loc =>
              match load_json fs config_loc with
              | none => .error ("cannot load JSON: " ++ config_loc)
              | some config =>
              match pyGet manifest "layers" with
              | none => .error "KeyError: layers"
              | some (Json.arr layer_descs) =>
                  (build_oci_layers hash fs extracted_location verify
                    layer_descs).bind fun layers =>
                  match config with
                  | Json.obj ckvs =>
                      let history := match pyGet ckvs "history" with
                        | some v => if v.truthy then v else Json.obj []
                        | none => Json.obj []
                      (assign_history_json history layers).bind fun layers2 =>
                      (from_config_data config).bind fun cf =>
                      Image_init hash fs "oci" extracted_location
                        archive_location config_sha256 config_digest
                        (Json.arr []) layers2 history cf
                  | _ => .error "AttributeError: config JSON is not a mapping"
              | some _ => .error "TypeError: layers is not a list"
          | some _ => .error "TypeError: manifest blob is not a mapping"
      | some _ => .error "Unsupported OCI index media type"
  | _ => .error "TypeError: manifest descriptor is not a mapping"

/-- Embedding of `Image.get_oci_images_from_dir`. -/
def get_oci_images_from_dir (hash : List Nat → String) (fs : PyFS)
    (extracted_location : String) (archive_location : Option String)
    (verify : Bool) : Except String (List ImageM) :=
  let index_loc := os_path_join extracted_location "index.json"
  match load_json fs index_loc with
  | none => .error ("cannot load JSON: " ++ index_loc)
  | some index0 =>
  match lower_keys index0 with
  | Json.obj index =>
      match pyGet index "schemaversion" with
      | none => .error "KeyError: schemaVersion"
      | some (Json.num n) =>
          if n != 2 then
            .error ("Unsupported OCI index schema version in " ++ index_loc)
          else
          match pyGet index "manifests" with
          | none => .error "KeyError: manifests"
          | some (Json.arr ms) =>
              mapExceptList
                (oci_image_from_manifest_data hash fs extracted_location
                  archive_location verify) ms
          | some (Json.obj kvs) =>
              if kvs.isEmpty then .ok []
              else .error "TypeError: manifest descriptor"
          | some (Json.str s) =>
              if s == "" then .ok [] else .error "TypeError: manifest descriptor"
          | some _ => .error "TypeError: manifests is not iterable"
      | some _ => .error ("Unsupported OCI index schema version in " ++ index_loc)
  | _ => .error "TypeError: index is not a mapping"

/-! ## image.py — Layer.extract and Image.get_images_from_tarball -/

/-- Embedding of `Layer.extract`: set the layer's `extracted_location`
attribute first, then run `utils.extract_tar` on the layer archive (whose
failure — a missing or unreadable tarball — is the error component). -/
def Layer_extract (fs : PyFS) (layer : LayerM) (extracted_location : String) :
    LayerM × Except String (List ExtractEvent) :=
  let layer2 := { layer with extracted_location := some extracted_location }
  match fsFind fs layer.archive_location with
  | some e =>
      match e.tar with
      | some entries =>
          (layer2, .ok (extract_tar layer.archive_location entries true).1)
      | none => (layer2, .error ("tarfile.ReadError: " ++ layer.archive_location))
  | none => (layer2, .error ("FileNotFoundError: " ++ layer.archive_location))

/-! ## Theorems: claim C1 — opaque whiteout marker -/

/-- C1: REFUTED — the claim states that a marker whose basename is exactly
`.wh..wh..opq` (the OCI opaque-whiteout name) whites out its parent
directory, and that squashing layer 2 = `{/a/.wh..wh..opq}` over layer 1 =
`{/a/x, /a/y}` erases `/a/x` and `/a/y`.  The source constant
`WHITEOUT_OPAQUE_PREFIX` is `.wh..wh.opq` (one dot before `opq`), so the
OCI marker falls through to the explicit-whiteout branch: its whiteable
path is `a/.opq`, not the parent directory `a`, and after the squash step
both `/a/x` and `/a/y` survive.  The constant contradicts the OCI layer
specification that the surrounding code cites for this exact behaviour. -/
theorem claim_C1_opaque_whiteout_code_divergence :
    get_whiteable_path "a/.wh..wh..opq" = some "a/.opq"
    ∧ os_path_dirname "a/.wh..wh..opq" = "a"
    ∧ get_whiteable_path "a/.wh..wh..opq" ≠ some (os_path_dirname "a/.wh..wh..opq")
    ∧ find_whiteouts "/t2" [("/t2", ["a"], []), ("/t2/a", [], [".wh..wh..opq"])]
        = [("/t2/a/.wh..wh..opq", "a/.opq")]
    ∧ rebuild_rootfs_step ["a/x", "a/y"] "/t2" ["a/.wh..wh..opq"]
        [("/t2", ["a"], []), ("/t2/a", [], [".wh..wh..opq"])] = ["a/x", "a/y"]
    ∧ get_whiteable_path "a/.wh..wh.opq" = some "a" := by
  refine ⟨rfl, rfl, ?_, rfl, rfl, rfl⟩
  decide

/-! ## Theorems: claim C3 — Image.extract calls a missing function -/

/-- C3: REFUTED by a missing attribute — `Image.get_images_from_tarball`
first calls `Image.extract`, whose body is
`utils.extract_tar_keeping_symlinks(...)`; no such name is bound in
`container_inspector.utils` (the existing function is
`extract_tar_with_symlinks`), so every call raises `AttributeError` before
anything is extracted, instead of returning a one-image list. -/
theorem claim_C3_get_images_from_tarball_raises :
    container_inspector_utils_defs.contains image_extract_callee = false
    ∧ container_inspector_utils_defs.contains "extract_tar_with_symlinks" = true := by
  decide

/-! ## Theorems: claim C10 — Layer.extract sets extracted_location first -/

/-- C10: CONFIRMED — `Layer.extract` assigns `self.extracted_location`
before invoking `utils.extract_tar`, so the attribute equals the requested
directory afterwards, including when the tar extraction fails (the layer
state is not left unchanged on error). -/
theorem claim_C10_layer_extract_sets_location (fs : PyFS) (layer : LayerM)
    (d : String) :
    (Layer_extract fs layer d).1.extracted_location = some d
    ∧ (fsFind fs layer.archive_location = none →
        ∃ e, (Layer_extract fs layer d).2 = Except.error e) := by
  unfold Layer_extract
  constructor
  · cases h : fsFind fs layer.archive_location with
    | none => simp [h]
    | some fe => cases hf : fe.tar <;> simp [h, hf]
  · intro h
    exact ⟨"FileNotFoundError: " ++ layer.archive_location, by simp [h]⟩

/-- A layer fixture for the C10 witness. -/
def layer10 : LayerM :=
  { extracted_location := none, archive_location := "/x/layer.tar",
    sha256 := some "s", layer_id := some "s", size := 0,
    is_empty_layer := false, author := none, created := none,
    created_by := none, comment := none }

/-- An empty filesystem fixture for the C10 witness. -/
def fs10 : PyFS := { files := [], dirs := [] }

/-- Witness for C10 at a concrete layer over an empty filesystem (so the
extraction fails while the attribute is still set). -/
theorem claim_C10_witness :
    (Layer_extract fs10 layer10 "/tmp/out").1.extracted_location = some "/tmp/out"
    ∧ (fsFind fs10 layer10.archive_location = none →
        ∃ e, (Layer_extract fs10 layer10 "/tmp/out").2 = Except.error e) :=
  claim_C10_layer_extract_sets_location fs10 layer10 "/tmp/out"

/-! ## Theorems: claim C7 — find_root -/

/-- C7: REFUTED as stated — when the walk reaches a directory deeper than
`max_depth`, `find_root` returns `None` immediately rather than merely not
descending, so a qualifying directory that appears later in the walk is
never found.  Here `/r/good` is at depth 1 and holds `usr` and `etc`, yet
`find_root` returns nothing because the walk visited `/r/deep/d1/d2/d3`
(depth 4) first. -/
theorem claim_C7_counterexample :
    find_root "/r" 3 LINUX_PATHS 2
      [("/r", ["deep", "good"], []), ("/r/deep", ["d1"], []),
       ("/r/deep/d1", ["d2"], []), ("/r/deep/d1/d2", ["d3"], []),
       ("/r/deep/d1/d2/d3", [], []), ("/r/good", [], ["usr", "etc"])] = none
    ∧ compute_path_depth "/r" "/r/good" ≤ 3
    ∧ root_matches LINUX_PATHS ("/r/good", [], ["usr", "etc"]) ≥ 2
    ∧ ("/r/good", [], ["usr", "etc"]) ∈
        ([("/r", ["deep", "good"], []), ("/r/deep", ["d1"], []),
          ("/r/deep/d1", ["d2"], []), ("/r/deep/d1/d2", ["d3"], []),
          ("/r/deep/d1/d2/d3", [], []), ("/r/good", [], ["usr", "etc"])] :
          List WalkEntry) := by
  exact ⟨rfl, by decide, by decide, by decide⟩

/-- C7 as amended: provided no directory of the walk lies deeper than
`max_depth` (or `max_depth` is 0), if some visited directory holds at least
`min_paths` names from `root_paths` then `find_root` returns such a
directory.  Without that proviso the scan can abort early, as the
counterexample shows. -/
theorem claim_C7_find_root_finds_qualifying (location : String)
    (max_depth : Nat) (root_paths : List String) (min_paths : Nat)
    (walker : List WalkEntry)
    (hdepth : ∀ w ∈ walker, max_depth = 0 ∨
      compute_path_depth location w.1 ≤ max_depth)
    (hq : ∃ w ∈ walker, root_matches root_paths w ≥ min_paths) :
    ∃ t, find_root location max_depth root_paths min_paths walker = some t
      ∧ ∃ w ∈ walker, w.1 = t ∧ root_matches root_paths w ≥ min_paths := by
  induction walker with
  | nil => obtain ⟨w, hw, _⟩ := hq; exact absurd hw (List.not_mem_nil w)
  | cons w rest ih =>
      have hdw := hdepth w (List.mem_cons_self w rest)
      have hnotdeep : (max_depth != 0 &&
          decide (compute_path_depth location w.1 > max_depth)) = false := by
        rcases hdw with h0 | hle
        · subst h0; simp
        · simp only [Bool.and_eq_false_iff]
          right
          simpa using Nat.not_lt.mpr hle
      by_cases hm : root_matches root_paths w ≥ min_paths
      · refine ⟨w.1, ?_, w, List.mem_cons_self w rest, rfl, hm⟩
        unfold find_root
        rw [hnotdeep]
        simp [hm]
      · have hq' : ∃ v ∈ rest, root_matches root_paths v ≥ min_paths := by
          obtain ⟨v, hv, hvq⟩ := hq
          rcases List.mem_cons.mp hv with h | h
          · exact absurd (h ▸ hvq) hm
          · exact ⟨v, h, hvq⟩
        have hdepth' : ∀ v ∈ rest, max_depth = 0 ∨
            compute_path_depth location v.1 ≤ max_depth :=
          fun v hv => hdepth v (List.mem_cons_of_mem w hv)
        obtain ⟨t, hfind, hwit⟩ := ih hdepth' hq'
        refine ⟨t, ?_, ?_⟩
        · unfold find_root
          rw [hnotdeep]
          simp only [Bool.false_eq_true, if_false]
          rw [if_neg hm]
          exact hfind
        · obtain ⟨v, hv, hveq, hvq⟩ := hwit
          exact ⟨v, List.mem_cons_of_mem w hv, hveq, hvq⟩

/-- Witness for the amended C7 on a concrete shallow walk. -/
theorem claim_C7_witness :
    ∃ t, find_root "/r" 3 LINUX_PATHS 2
        [("/r", ["opt"], []), ("/r/opt", [], ["usr", "etc"])] = some t
      ∧ ∃ w ∈ ([("/r", ["opt"], []), ("/r/opt", [], ["usr", "etc"])] :
          List WalkEntry), w.1 = t ∧ root_matches LINUX_PATHS w ≥ 2 :=
  claim_C7_find_root_finds_qualifying "/r" 3 LINUX_PATHS 2
    [("/r", ["opt"], []), ("/r/opt", [], ["usr", "etc"])]
    (by decide) (by decide)

/-! ## Theorems: claims C2 and C8 — extract_tar -/

/-- Helper: `dropWhile` steps over an element satisfying the predicate. -/
theorem dropWhile_cons_pos {p : Char → Bool} {c : Char} (l : List Char)
    (h : p c = true) : (c :: l).dropWhile p = l.dropWhile p := by
  simp [List.dropWhile_cons, h]

/-- Helper: `dropWhile` stops at an element failing the predicate. -/
theorem dropWhile_cons_neg {p : Char → Bool} {c : Char} (l : List Char)
    (h : p c = false) : (c :: l).dropWhile p = c :: l := by
  simp [List.dropWhile_cons, h]

/-- Helper: `splitSlash` never returns the empty list. -/
theorem splitSlash_ne_nil (cs : List Char) : splitSlash cs ≠ [] := by
  cases cs with
  | nil => simp [splitSlash]
  | cons c rest =>
      unfold splitSlash
      cases h : splitSlash rest with
      | nil => simp
      | cons s ss => by_cases hc : (c == '/') = true <;> simp [hc]

/-- Helper: splitting after a leading slash prepends one empty segment. -/
theorem splitSlash_cons_slash (rest : List Char) :
    splitSlash ('/' :: rest) = [] :: splitSlash rest := by
  cases h : splitSlash rest with
  | nil => exact absurd h (splitSlash_ne_nil rest)
  | cons s ss =>
      conv_lhs => rw [splitSlash]
      rw [h]
      simp

/-- Dropping leading slashes cannot introduce or remove a `..` segment:
only empty leading components disappear. -/
theorem splitSlash_dropWhile_any_dotdot (cs : List Char) :
    ((splitSlash (cs.dropWhile (fun c => c == '/'))).any
      (fun name => name == ['.', '.']))
    = ((splitSlash cs).any (fun name => name == ['.', '.'])) := by
  induction cs with
  | nil => rfl
  | cons c rest ih =>
      by_cases hc : c = '/'
      · subst hc
        have hdrop : (('/' :: rest).dropWhile (fun c => c == '/'))
            = rest.dropWhile (fun c => c == '/') :=
          dropWhile_cons_pos rest rfl
        rw [hdrop, ih, splitSlash_cons_slash]
        simp
      · have hcb : (c == '/') = false := by simpa using hc
        have hdrop : ((c :: rest).dropWhile (fun c => c == '/')) = c :: rest := by
          simp [List.dropWhile, hcb]
        rw [hdrop]

/-- Stripping leading slashes preserves `is_relative_path`. -/
theorem is_relative_path_lstrip (s : String) :
    is_relative_path (pyLstrip s '/') = is_relative_path s := by
  unfold is_relative_path pyLstrip
  exact splitSlash_dropWhile_any_dotdot s.data

/-- A string with its leading slashes stripped does not start with a
slash. -/
theorem pyStartsWith_lstrip_slash (s : String) :
    pyStartsWith (pyLstrip s '/') "/" = false := by
  unfold pyStartsWith pyLstrip
  show prefixChars ['/'] (s.data.dropWhile (fun c => c == '/')) = false
  induction s.data with
  | nil => rfl
  | cons c rest ih =>
      by_cases hc : c = '/'
      · subst hc
        have hdrop : (('/' :: rest).dropWhile (fun c => c == '/'))
            = rest.dropWhile (fun c => c == '/') :=
          dropWhile_cons_pos rest rfl
        rw [hdrop]
        exact ih
      · have hcb : (c == '/') = false := by simpa using hc
        have hcb2 : ('/' == c) = false := by
          apply beq_eq_false_iff_ne.mpr
          exact fun h => hc h.symm
        have hdrop : ((c :: rest).dropWhile (fun c => c == '/')) = c :: rest :=
          dropWhile_cons_neg rest hcb
        rw [hdrop]
        simp [prefixChars, hcb2]

/-- Whatever `process_entry` writes is a relative path free of `..`
segments. -/
theorem process_entry_written_safe (location : String) (skip : Bool)
    (e : TarEntry) (p : String) (hp : p ∈ (process_entry location skip e).2) :
    is_relative_path p = false ∧ pyStartsWith p "/" = false := by
  unfold process_entry at hp
  by_cases hdev : (e.isdev || e.sparse) = true
  · simp [hdev] at hp
  · simp only [Bool.not_eq_true] at hdev
    rw [hdev] at hp
    simp only [Bool.false_eq_true, if_false] at hp
    by_cases hrel : is_relative_path e.name = true
    · simp [hrel] at hp
    · simp only [Bool.not_eq_true] at hrel
      rw [hrel] at hp
      simp only [Bool.false_eq_true, if_false] at hp
      by_cases hlnk : (skip && e.islink) = true
      · simp [hlnk] at hp
      · simp only [Bool.not_eq_true] at hlnk
        rw [hlnk] at hp
        simp only [Bool.false_eq_true, if_false] at hp
        by_cases habs : pyStartsWith e.name "/" = true
        · rw [habs] at hp
          simp only [if_true, List.mem_singleton] at hp
          subst hp
          exact ⟨by rw [is_relative_path_lstrip]; exact hrel,
            pyStartsWith_lstrip_slash e.name⟩
        · simp only [Bool.not_eq_true] at habs
          rw [habs] at hp
          simp only [Bool.false_eq_true, if_false, List.mem_singleton] at hp
          subst hp
          exact ⟨hrel, habs⟩

/-- Unfolding equation of `extract_tar` on a cons cell. -/
theorem extract_tar_cons (location : String) (e : TarEntry)
    (rest : List TarEntry) (skip : Bool) :
    extract_tar location (e :: rest) skip
      = ((process_entry location skip e).1 ++ (extract_tar location rest skip).1,
         (process_entry location skip e).2 ++ (extract_tar location rest skip).2) :=
  rfl

/-- Membership in the output of `extract_tar` comes from some entry's
`process_entry` output (events component). -/
theorem extract_tar_events_mem (location : String) (entries : List TarEntry)
    (skip : Bool) (ev : ExtractEvent) :
    ev ∈ (extract_tar location entries skip).1 ↔
      ∃ e ∈ entries, ev ∈ (process_entry location skip e).1 := by
  induction entries with
  | nil => simp [extract_tar]
  | cons e rest ih =>
      rw [extract_tar_cons]
      simp only [List.mem_append, ih, List.mem_cons]
      constructor
      · rintro (h | ⟨f, hf, hev⟩)
        · exact ⟨e, Or.inl rfl, h⟩
        · exact ⟨f, Or.inr hf, hev⟩
      · rintro ⟨f, hf | hf, hev⟩
        · exact Or.inl (hf ▸ hev)
        · exact Or.inr ⟨f, hf, hev⟩

/-- Membership in the output of `extract_tar` comes from some entry's
`process_entry` output (written-paths component). -/
theorem extract_tar_written_mem (location : String) (entries : List TarEntry)
    (skip : Bool) (p : String) :
    p ∈ (extract_tar location entries skip).2 ↔
      ∃ e ∈ entries, p ∈ (process_entry location skip e).2 := by
  induction entries with
  | nil => simp [extract_tar]
  | cons e rest ih =>
      rw [extract_tar_cons]
      simp only [List.mem_append, ih, List.mem_cons]
      constructor
      · rintro (h | ⟨f, hf, hp⟩)
        · exact ⟨e, Or.inl rfl, h⟩
        · exact ⟨f, Or.inr hf, hp⟩
      · rintro ⟨f, hf | hf, hp⟩
        · exact Or.inl (hf ▸ hp)
        · exact Or.inr ⟨f, hf, hp⟩

/-- A fifo tar member whose path climbs out of the target directory. -/
def entryFifoRel : TarEntry :=
  { name := "../evil", kind := TarKind.fifo, sparse := false, linkname := "" }

/-- A regular tar member whose path climbs out of the target directory. -/
def entryRel : TarEntry :=
  { name := "../up", kind := TarKind.reg, sparse := false, linkname := "" }

/-- A regular tar member with an absolute path. -/
def entryAbs : TarEntry :=
  { name := "/tmp/a.txt", kind := TarKind.reg, sparse := false, linkname := "" }

/-- A symlink tar member. -/
def entrySym : TarEntry :=
  { name := "a", kind := TarKind.sym, sparse := false, linkname := "b" }

/-- A hardlink tar member. -/
def entryHard : TarEntry :=
  { name := "h", kind := TarKind.lnk, sparse := false, linkname := "a" }

/-- A plain regular tar member. -/
def entryReg : TarEntry :=
  { name := "f", kind := TarKind.reg, sparse := false, linkname := "" }

/-- C2: REFUTED as stated, because a device/fifo/sparse member whose path
contains a `..` segment is skipped with an `info` event, not a `warning`
(the device-file check runs before the relative-path check).  Here a fifo
named `../evil` is skipped with a single `info` event and no warning at
all, while the claim requires a warning event for every entry with a `..`
segment. -/
theorem claim_C2_counterexample :
    is_relative_path entryFifoRel.name = true
    ∧ extract_tar "t.tar" [entryFifoRel] true
      = ([{ type := "info", source := "../evil",
            message := "skipping unsupported ../evil file type: block, chr, dev or sparse file" }],
         [])
    ∧ ((extract_tar "t.tar" [entryFifoRel] true).1.all
        (fun ev => ev.type != ExtractEvent.WARNING)) = true := by
  exact ⟨rfl, rfl, rfl⟩

/-- C2 as amended: `extract_tar` never writes outside the target — every
extracted path is relative and free of `..` segments; every non-device,
non-sparse entry whose path contains a `..` segment is skipped with a
warning event; and every entry that passes the device, `..` and link-skip
checks and starts with `/` is extracted with its leading slashes stripped,
with a warning event.  (Device-like entries with a `..` segment get an
`info` event instead, as the counterexample shows.) -/
theorem claim_C2_extract_tar_safety (location : String)
    (entries : List TarEntry) (skip : Bool) :
    (∀ p ∈ (extract_tar location entries skip).2,
      is_relative_path p = false ∧ pyStartsWith p "/" = false)
    ∧ (∀ e ∈ entries, (e.isdev || e.sparse) = false →
        is_relative_path e.name = true →
        ({ type := ExtractEvent.WARNING, source := e.name,
           message := location ++ ": skipping unsupported " ++ e.name ++
             " with relative path." } : ExtractEvent)
          ∈ (extract_tar location entries skip).1)
    ∧ (∀ e ∈ entries, (e.isdev || e.sparse) = false →
        is_relative_path e.name = false → (skip && e.islink) = false →
        pyStartsWith e.name "/" = true →
        ({ type := ExtractEvent.WARNING, source := e.name,
           message := location ++ ": absolute path name: " ++ e.name ++
             " transformed in relative path." } : ExtractEvent)
          ∈ (extract_tar location entries skip).1
        ∧ pyLstrip e.name '/' ∈ (extract_tar location entries skip).2) := by
  refine ⟨?_, ?_, ?_⟩
  · intro p hp
    obtain ⟨e, _, hpe⟩ := (extract_tar_written_mem location entries skip p).mp hp
    exact process_entry_written_safe location skip e p hpe
  · intro e he hdev hrel
    refine (extract_tar_events_mem location entries skip _).mpr ⟨e, he, ?_⟩
    unfold process_entry
    rw [hdev]
    simp [hrel]
  · intro e he hdev hrel hlnk habs
    constructor
    · refine (extract_tar_events_mem location entries skip _).mpr ⟨e, he, ?_⟩
      unfold process_entry
      rw [hdev, hrel, hlnk, habs]
      simp
    · refine (extract_tar_written_mem location entries skip _).mpr ⟨e, he, ?_⟩
      unfold process_entry
      rw [hdev, hrel, hlnk, habs]
      simp

/-- Witness for the amended C2 at a concrete archive holding a `..` entry
and an absolute-path entry. -/
theorem claim_C2_witness :
    (∀ p ∈ (extract_tar "t.tar" [entryRel, entryAbs] true).2,
      is_relative_path p = false ∧ pyStartsWith p "/" = false)
    ∧ (∀ e ∈ [entryRel, entryAbs], (e.isdev || e.sparse) = false →
        is_relative_path e.name = true →
        ({ type := ExtractEvent.WARNING, source := e.name,
           message := "t.tar" ++ ": skipping unsupported " ++ e.name ++
             " with relative path." } : ExtractEvent)
          ∈ (extract_tar "t.tar" [entryRel, entryAbs] true).1)
    ∧ (∀ e ∈ [entryRel, entryAbs], (e.isdev || e.sparse) = false →
        is_relative_path e.name = false → (true && e.islink) = false →
        pyStartsWith e.name "/" = true →
        ({ type := ExtractEvent.WARNING, source := e.name,
           message := "t.tar" ++ ": absolute path name: " ++ e.name ++
             " transformed in relative path." } : ExtractEvent)
          ∈ (extract_tar "t.tar" [entryRel, entryAbs] true).1
        ∧ pyLstrip e.name '/' ∈ (extract_tar "t.tar" [entryRel, entryAbs] true).2) :=
  claim_C2_extract_tar_safety "t.tar" [entryRel, entryAbs] true

/-- A link entry that passed the device and `..` checks, which
`extract_tar` silently drops when `skip_symlinks` is set. -/
def linkSkipped (e : TarEntry) : Bool :=
  !(e.isdev || e.sparse) && !is_relative_path e.name && e.islink

/-- C8: REFUTED as stated — with `skip_symlinks` true a symlink entry is
skipped, but no event at all is appended to the returned list (the source
builds the message and only traces it): extracting a single symlink yields
an empty event list, not an `info` event. -/
theorem claim_C8_counterexample :
    entrySym.islink = true
    ∧ extract_tar "t.tar" [entrySym] true = ([], []) := by
  exact ⟨rfl, rfl⟩

/-- C8 as amended: with `skip_symlinks` true, every hardlink or symlink
entry (past the device and `..` checks) is skipped — it is not extracted
and contributes no event: such entries can be removed from the archive
without changing the result of `extract_tar` at all. -/
theorem claim_C8_links_skipped_silently (location : String)
    (entries : List TarEntry) :
    (∀ e : TarEntry, (e.isdev || e.sparse) = false →
      is_relative_path e.name = false → e.islink = true →
      process_entry location true e = ([], []))
    ∧ extract_tar location entries true
      = extract_tar location (entries.filter (fun e => !linkSkipped e)) true := by
  constructor
  · intro e hdev hrel hlnk
    unfold process_entry
    rw [hdev, hrel]
    simp [hlnk]
  · induction entries with
    | nil => rfl
    | cons e rest ih =>
        by_cases hsk : linkSkipped e = true
        · have hpe : process_entry location true e = ([], []) := by
            unfold linkSkipped at hsk
            simp only [Bool.and_eq_true, Bool.not_eq_true'] at hsk
            unfold process_entry
            rw [hsk.1.1, hsk.1.2]
            simp [hsk.2]
          rw [extract_tar_cons, hpe]
          simp only [List.nil_append]
          rw [ih]
          have hfil : (e :: rest).filter (fun e => !linkSkipped e)
              = rest.filter (fun e => !linkSkipped e) := by
            simp [List.filter, hsk]
          rw [hfil]
        · have hsk' : linkSkipped e = false := by
            simpa using hsk
          have hfil : (e :: rest).filter (fun e => !linkSkipped e)
              = e :: rest.filter (fun e => !linkSkipped e) := by
            simp [List.filter, hsk']
          rw [hfil, extract_tar_cons, extract_tar_cons, ih]

/-- Witness for the amended C8 on a concrete archive holding a symlink, a
hardlink and a regular file. -/
theorem claim_C8_witness :
    (∀ e : TarEntry, (e.isdev || e.sparse) = false →
      is_relative_path e.name = false → e.islink = true →
      process_entry "t.tar" true e = ([], []))
    ∧ extract_tar "t.tar" [entrySym, entryHard, entryReg] true
      = extract_tar "t.tar"
          (([entrySym, entryHard, entryReg] : List TarEntry).filter
            (fun e => !linkSkipped e)) true :=
  claim_C8_links_skipped_silently "t.tar" [entrySym, entryHard, entryReg]

/-! ## Theorems: claim C9 — parse_os_release -/

/-- Upserting a key makes lookup of that key return the new value. -/
theorem dictUpsert_lookup_eq (acc : List (String × String)) (k v : String) :
    dictLookup (dictUpsert acc k v) k = some v := by
  induction acc with
  | nil => simp [dictUpsert, dictLookup]
  | cons p rest ih =>
      rcases p with ⟨k2, v2⟩
      by_cases h : (k2 == k) = true
      · simp [dictUpsert, dictLookup, h]
      · have h' : (k2 == k) = false := by simpa using h
        simp [dictUpsert, dictLookup, h', ih]

/-- Upserting a key leaves lookups of other keys unchanged. -/
theorem dictUpsert_lookup_ne (acc : List (String × String)) (k v k2 : String)
    (hne : k2 ≠ k) : dictLookup (dictUpsert acc k v) k2 = dictLookup acc k2 := by
  induction acc with
  | nil =>
      have : (k == k2) = false := beq_eq_false_iff_ne.mpr (fun h => hne h.symm)
      simp [dictUpsert, dictLookup, this]
  | cons p rest ih =>
      rcases p with ⟨k3, v3⟩
      by_cases h : (k3 == k) = true
      · have hk3 : k3 = k := by simpa using h
        subst hk3
        have : (k3 == k2) = false := beq_eq_false_iff_ne.mpr (fun h => hne h.symm)
        simp [dictUpsert, dictLookup, this]
      · have h' : (k3 == k) = false := by simpa using h
        by_cases h2 : (k3 == k2) = true
        · simp [dictUpsert, dictLookup, h', h2]
        · have h2' : (k3 == k2) = false := by simpa using h2
          simp [dictUpsert, dictLookup, h', h2', ih]

/-- Unfolding equation of `parse_os_release_aux` on a cons cell. -/
theorem parse_os_release_aux_cons (l : String) (t : List String)
    (acc : List (String × String)) :
    parse_os_release_aux (l :: t) acc =
      match os_release_line l with
      | none => parse_os_release_aux t acc
      | some (key, value) =>
          match shlex_split value with
          | none => none
          | some ws => parse_os_release_aux t (dictUpsert acc key (strConcat ws)) :=
  rfl

/-- Lines that never assign key `k` leave the parsed value of `k`
untouched. -/
theorem parse_os_release_aux_no_assign (ls : List String)
    (acc m : List (String × String)) (k : String)
    (hno : ∀ l ∈ ls, ∀ kv, os_release_line l = some kv → kv.1 ≠ k)
    (hp : parse_os_release_aux ls acc = some m) :
    dictLookup m k = dictLookup acc k := by
  induction ls generalizing acc with
  | nil =>
      unfold parse_os_release_aux at hp
      cases hp
      rfl
  | cons l rest ih =>
      rw [parse_os_release_aux_cons] at hp
      cases hline : os_release_line l with
      | none =>
          rw [hline] at hp
          exact ih acc (fun l2 h2 => hno l2 (List.mem_cons_of_mem l h2)) hp
      | some kv =>
          rcases kv with ⟨key, value⟩
          rw [hline] at hp
          dsimp only at hp
          cases hsh : shlex_split value with
          | none => rw [hsh] at hp; cases hp
          | some ws =>
              rw [hsh] at hp
              dsimp only at hp
              have hr := ih (dictUpsert acc key (strConcat ws))
                (fun l2 h2 => hno l2 (List.mem_cons_of_mem l h2)) hp
              rw [hr]
              exact dictUpsert_lookup_ne acc key (strConcat ws) k
                (hno l (List.mem_cons_self l rest) (key, value) hline).symm

/-- Helper: splitting `parse_os_release_aux` at a list append. -/
theorem parse_os_release_aux_append (xs ys : List String)
    (acc : List (String × String)) :
    parse_os_release_aux (xs ++ ys) acc =
      match parse_os_release_aux xs acc with
      | some acc2 => parse_os_release_aux ys acc2
      | none => none := by
  induction xs generalizing acc with
  | nil => rfl
  | cons l rest ih =>
      show parse_os_release_aux (l :: (rest ++ ys)) acc = _
      rw [parse_os_release_aux_cons, parse_os_release_aux_cons]
      cases hline : os_release_line l with
      | none => exact ih acc
      | some kv =>
          rcases kv with ⟨key, value⟩
          dsimp only
          cases hsh : shlex_split value with
          | none => rfl
          | some ws => exact ih (dictUpsert acc key (strConcat ws))

/-- C9: REFUTED as universally stated — when a later line assigns the same
key again, the parsed mapping holds only the last value, so the earlier
key/value pair of the raw file is not present in the mapping.  The file
`A=1`, `A=2` contains the pair `(A, 1)` but parses to `A → 2`. -/
theorem claim_C9_counterexample :
    parse_os_release ["A=1", "A=2"] = some [("A", "2")]
    ∧ os_release_line "A=1" = some ("A", "1")
    ∧ shlex_split "1" = some ["1"]
    ∧ dictLookup [("A", "2")] "A" ≠ some (strConcat ["1"]) := by
  refine ⟨rfl, rfl, rfl, ?_⟩
  decide

/-- C9 as amended: `parse_os_release` ignores blank and `#` lines, splits
each remaining line at the first `=`, and maps the key to the concatenation
of the POSIX shell words of the value; for every key/value pair of the raw
file whose key is not assigned again on a later line, the parsed mapping
contains key → shell-unquoted(value).  (A re-assigned key keeps only its
last value, as the counterexample shows.) -/
theorem claim_C9_parse_os_release (pre post : List String) (line : String)
    (m : List (String × String)) (k v : String) (ws : List String)
    (hp : parse_os_release (pre ++ line :: post) = some m)
    (hline : os_release_line line = some (k, v))
    (hsh : shlex_split v = some ws)
    (hlast : ∀ l2 ∈ post, ∀ kv2, os_release_line l2 = some kv2 → kv2.1 ≠ k) :
    dictLookup m k = some (strConcat ws) := by
  unfold parse_os_release at hp
  rw [parse_os_release_aux_append] at hp
  cases hpre : parse_os_release_aux pre [] with
  | none => rw [hpre] at hp; cases hp
  | some acc1 =>
      rw [hpre] at hp
      dsimp only at hp
      rw [parse_os_release_aux_cons, hline] at hp
      dsimp only at hp
      rw [hsh] at hp
      dsimp only at hp
      have := parse_os_release_aux_no_assign post
        (dictUpsert acc1 k (strConcat ws)) m k hlast hp
      rw [this]
      exact dictUpsert_lookup_eq acc1 k (strConcat ws)

/-- Witness for the amended C9 on the spec's own Debian example. -/
theorem claim_C9_witness :
    dictLookup [("NAME", "Debian GNU/Linux"), ("ID", "debian")] "NAME"
      = some (strConcat ["Debian GNU/Linux"]) :=
  claim_C9_parse_os_release [] ["ID=debian"] "NAME=\"Debian GNU/Linux\""
    [("NAME", "Debian GNU/Linux"), ("ID", "debian")] "NAME"
    "\"Debian GNU/Linux\"" ["Debian GNU/Linux"] rfl rfl rfl (by decide)

/-! ## Theorems: claim C6 — history-to-layer assignment -/

/-- Setting a history field preserves emptiness, digest and location. -/
theorem set_history_field_preserves (l : LayerM) (field : String) (v : Json) :
    (set_history_field l field v).is_empty_layer = l.is_empty_layer
    ∧ (set_history_field l field v).sha256 = l.sha256
    ∧ (set_history_field l field v).archive_location = l.archive_location := by
  unfold set_history_field
  repeat' split
  all_goals exact ⟨rfl, rfl, rfl⟩

/-- One field-loop iteration preserves emptiness, digest and location. -/
theorem assign_field_preserves (h2 : List (String × Json)) (l : LayerM)
    (field : String) :
    (assign_field h2 l field).is_empty_layer = l.is_empty_layer
    ∧ (assign_field h2 l field).sha256 = l.sha256
    ∧ (assign_field h2 l field).archive_location = l.archive_location := by
  unfold assign_field
  cases pyGet h2 field with
  | none => exact ⟨rfl, rfl, rfl⟩
  | some v =>
      by_cases hv : v.truthy = true
      · simpa [hv] using set_history_field_preserves l field v
      · have hv' : v.truthy = false := by simpa using hv
        simp [hv']

/-- Folding the field loop preserves emptiness, digest and location. -/
theorem assign_field_foldl_preserves (h2 : List (String × Json))
    (fields : List String) (l : LayerM) :
    (fields.foldl (assign_field h2) l).is_empty_layer = l.is_empty_layer
    ∧ (fields.foldl (assign_field h2) l).sha256 = l.sha256
    ∧ (fields.foldl (assign_field h2) l).archive_location = l.archive_location := by
  induction fields generalizing l with
  | nil => exact ⟨rfl, rfl, rfl⟩
  | cons f rest ih =>
      obtain ⟨h1, h2', h3⟩ := assign_field_preserves h2 l f
      obtain ⟨g1, g2, g3⟩ := ih (assign_field h2 l f)
      exact ⟨g1.trans h1, g2.trans h2', g3.trans h3⟩

/-- The field copy of one history entry touches only the four history
fields: emptiness, digest and location are preserved. -/
theorem assign_fields_preserves (h : List (String × Json)) (l : LayerM) :
    (assign_fields h l).is_empty_layer = l.is_empty_layer
    ∧ (assign_fields h l).sha256 = l.sha256
    ∧ (assign_fields h l).archive_location = l.archive_location := by
  unfold assign_fields
  exact assign_field_foldl_preserves _ history_fields l

/-- Unfolding equation of `assign_zip` on a cons cell. -/
theorem assign_zip_cons (hs : List (List (String × Json))) (l : LayerM)
    (ls : List LayerM) :
    assign_zip hs (l :: ls) =
      if l.is_empty_layer then l :: assign_zip hs ls
      else
        match hs with
        | [] => l :: ls
        | h :: hs2 => assign_fields h l :: assign_zip hs2 ls := by
  cases hs <;> rfl

/-- Behaviour of `assign_zip` when the history count matches the number of
non-empty layers: non-empty layers receive the entries pointwise, empty
layers pass through unchanged, and the length is preserved. -/
theorem assign_zip_spec (layers : List LayerM)
    (hs : List (List (String × Json)))
    (hlen : hs.length = (non_empty_layers_of layers).length) :
    (assign_zip hs layers).filter (fun l => !l.is_empty_layer)
      = List.zipWith assign_fields hs (non_empty_layers_of layers)
    ∧ (assign_zip hs layers).filter (fun l => l.is_empty_layer)
      = layers.filter (fun l => l.is_empty_layer)
    ∧ (assign_zip hs layers).length = layers.length := by
  induction layers generalizing hs with
  | nil =>
      have : hs.length = 0 := by simpa [non_empty_layers_of] using hlen
      rcases List.eq_nil_of_length_eq_zero this with rfl
      exact ⟨rfl, rfl, rfl⟩
  | cons l ls ih =>
      by_cases hemp : l.is_empty_layer = true
      · have hfil : non_empty_layers_of (l :: ls) = non_empty_layers_of ls := by
          simp [non_empty_layers_of, List.filter, hemp]
        have hzip : assign_zip hs (l :: ls) = l :: assign_zip hs ls := by
          rw [assign_zip_cons, if_pos hemp]
        rw [hfil] at hlen
        obtain ⟨ih1, ih2, ih3⟩ := ih hs hlen
        refine ⟨?_, ?_, ?_⟩
        · rw [hzip, hfil]
          simp only [List.filter, hemp]
          exact ih1
        · rw [hzip]
          simp only [List.filter, hemp]
          rw [ih2]
        · rw [hzip]
          simp [ih3]
      · have hemp' : l.is_empty_layer = false := by simpa using hemp
        have hfil : non_empty_layers_of (l :: ls) = l :: non_empty_layers_of ls := by
          simp [non_empty_layers_of, List.filter, hemp']
        rw [hfil] at hlen
        simp only [List.length_cons] at hlen
        cases hs with
        | nil => simp at hlen
        | cons h hs2 =>
            simp only [List.length_cons, Nat.succ.injEq] at hlen
            have hzip : assign_zip (h :: hs2) (l :: ls)
                = assign_fields h l :: assign_zip hs2 ls := by
              rw [assign_zip_cons, if_neg (by simp [hemp'])]
            obtain ⟨hpe, hps, hpa⟩ := assign_fields_preserves h l
            obtain ⟨ih1, ih2, ih3⟩ := ih hs2 hlen
            refine ⟨?_, ?_, ?_⟩
            · rw [hzip, hfil]
              simp only [List.filter, hpe, hemp']
              rw [ih1]
              rfl
            · rw [hzip]
              simp only [List.filter, hpe, hemp']
              exact ih2
            · rw [hzip]
              simp [ih3]

/-- A non-empty layer fixture for the C6 theorems. -/
def layerNorm6 : LayerM :=
  { extracted_location := none, archive_location := "/x/l1.tar",
    sha256 := some "s1", layer_id := some "s1", size := 1,
    is_empty_layer := false, author := none, created := none,
    created_by := none, comment := none }

/-- An empty layer fixture for the C6 counterexample. -/
def layerEmpty6 : LayerM :=
  { extracted_location := none, archive_location := "/x/l0.tar",
    sha256 := some "s0", layer_id := some "s0", size := 0,
    is_empty_layer := true, author := none, created := none,
    created_by := none, comment := none }

/-- C6: REFUTED as stated — the source compares the filtered history count
with the number of *non-empty* layers, not with `len(layers)`.  With one
non-empty history entry and two layers of which one is an empty layer, the
two lengths of the claim differ (1 ≠ 2), yet the code does copy the
history fields onto the non-empty layer. -/
theorem claim_C6_counterexample :
    (non_empty_history_of [[("author", Json.str "bob")]]).length
        ≠ ([layerEmpty6, layerNorm6] : List LayerM).length
    ∧ (assign_history_to_layers [[("author", Json.str "bob")]]
        [layerEmpty6, layerNorm6]).map (fun l => l.author)
      = [none, some (Json.str "bob")] := by
  exact ⟨by decide, rfl⟩

/-- C6 as amended: when the number of history entries with falsy
`empty_layer` equals the number of layers with `is_empty_layer` false, the
four history fields are copied entrywise onto the non-empty layers in
order (empty layers and the list length are untouched); when those two
counts differ — or the history is empty — the layers are returned
completely unchanged (and no error is raised: the function is total). -/
theorem claim_C6_history_alignment (history : List (List (String × Json)))
    (layers : List LayerM) :
    (history = [] ∨
        (non_empty_history_of history).length ≠ (non_empty_layers_of layers).length →
      assign_history_to_layers history layers = layers)
    ∧ (history ≠ [] →
        (non_empty_history_of history).length = (non_empty_layers_of layers).length →
        (assign_history_to_layers history layers).filter (fun l => !l.is_empty_layer)
            = List.zipWith assign_fields (non_empty_history_of history)
                (non_empty_layers_of layers)
          ∧ (assign_history_to_layers history layers).filter
                (fun l => l.is_empty_layer)
              = layers.filter (fun l => l.is_empty_layer)
          ∧ (assign_history_to_layers history layers).length = layers.length) := by
  constructor
  · rintro (rfl | hne)
    · rfl
    · unfold assign_history_to_layers
      by_cases hhist : history.isEmpty
      · simp [hhist]
      · simp only [hhist, Bool.false_eq_true, if_false]
        have : ((history.filter (fun h =>
            !((pyGet h "empty_layer").getD (Json.bool false)).truthy)).length
              != (layers.filter (fun l => !l.is_empty_layer)).length) = true := by
          simpa [non_empty_history_of, non_empty_layers_of] using hne
        rw [this]
        simp
  · intro hne hlen
    have hhist : history.isEmpty = false := by
      cases history with
      | nil => exact absurd rfl hne
      | cons a b => rfl
    have hbeq : ((history.filter (fun h =>
        !((pyGet h "empty_layer").getD (Json.bool false)).truthy)).length
          != (layers.filter (fun l => !l.is_empty_layer)).length) = false := by
      simpa [non_empty_history_of, non_empty_layers_of] using hlen
    have hred : assign_history_to_layers history layers
        = assign_zip (non_empty_history_of history) layers := by
      unfold assign_history_to_layers
      rw [hhist]
      simp only [Bool.false_eq_true, if_false]
      rw [hbeq]
      simp [non_empty_history_of]
    rw [hred]
    exact assign_zip_spec layers (non_empty_history_of history) hlen

/-- Witness for the amended C6: one non-empty entry aligned onto one
non-empty layer. -/
theorem claim_C6_witness :
    ([[("author", Json.str "bob")]] : List (List (String × Json))) ≠ [] →
    (non_empty_history_of [[("author", Json.str "bob")]]).length
        = (non_empty_layers_of [layerNorm6]).length →
    (assign_history_to_layers [[("author", Json.str "bob")]]
        [layerNorm6]).filter (fun l => !l.is_empty_layer)
        = List.zipWith assign_fields
            (non_empty_history_of [[("author", Json.str "bob")]])
            (non_empty_layers_of [layerNorm6])
      ∧ (assign_history_to_layers [[("author", Json.str "bob")]]
            [layerNorm6]).filter (fun l => l.is_empty_layer)
          = ([layerNorm6] : List LayerM).filter (fun l => l.is_empty_layer)
      ∧ (assign_history_to_layers [[("author", Json.str "bob")]]
            [layerNorm6]).length = ([layerNorm6] : List LayerM).length :=
  (claim_C6_history_alignment [[("author", Json.str "bob")]] [layerNorm6]).2

/-! ## Theorems: claims C4 and C5 — loader digest properties -/

/-- Destructuring a successful `Except.bind`. -/
theorem except_bind_ok {α β : Type} {x : Except String α}
    {f : α → Except String β} {b : β} (h : x.bind f = Except.ok b) :
    ∃ a, x = Except.ok a ∧ f a = Except.ok b := by
  cases x with
  | error e => simp [Except.bind] at h
  | ok a => exact ⟨a, rfl, by simpa [Except.bind] using h⟩

/-- Destructuring a successful `Except.map`. -/
theorem except_map_ok {α β : Type} {x : Except String α} {f : α → β} {b : β}
    (h : x.map f = Except.ok b) : ∃ a, x = Except.ok a ∧ f a = b := by
  cases x with
  | error e => simp [Except.map] at h
  | ok a => exact ⟨a, rfl, by simpa [Except.map] using h⟩

/-- A false boolean disequality is an equality. -/
theorem eq_of_bne_false {α : Type} [BEq α] [LawfulBEq α] {a b : α}
    (h : (a != b) = false) : a = b := by
  apply eq_of_beq
  simpa [bne] using h

/-- Every element of a successful `mapExceptList` comes from a successful
application of the function to some input element. -/
theorem mapExceptList_ok_mem {α β : Type} (f : α → Except String β)
    (xs : List α) (ys : List β) (h : mapExceptList f xs = Except.ok ys) :
    ∀ y ∈ ys, ∃ x ∈ xs, f x = Except.ok y := by
  induction xs generalizing ys with
  | nil =>
      unfold mapExceptList at h
      cases h
      intro y hy
      exact absurd hy (List.not_mem_nil y)
  | cons a rest ih =>
      unfold mapExceptList at h
      obtain ⟨b, hb, h2⟩ := except_bind_ok h
      obtain ⟨t, ht, h3⟩ := except_map_ok h2
      subst h3
      intro y hy
      rcases List.mem_cons.mp hy with rfl | hmem
      · exact ⟨a, List.mem_cons_self a rest, hb⟩
      · obtain ⟨x, hx, hfx⟩ := ih t ht y hmem
        exact ⟨x, List.mem_cons_of_mem a hx, hfx⟩

/-- The digest-and-location pair of a layer, the data the digest claims
are about. -/
def layer_key (l : LayerM) : Option String × String :=
  (l.sha256, l.archive_location)

/-- A freshly initialised layer whose on-disk digest matches the supplied
digest stores exactly that digest. -/
theorem Layer_init_verified (hash : List Nat → String) (fs : PyFS)
    (loc sha : String) (l : LayerM)
    (hd : sha256_digest hash fs loc = some sha)
    (h : Layer_init hash fs loc (some sha) = Except.ok l) :
    l.sha256 = some sha ∧ l.archive_location = loc := by
  unfold Layer_init at h
  by_cases hloc : (loc == "") = true
  · rw [if_pos hloc] at h
    cases h
  · rw [if_neg hloc] at h
    cases hfind : fsFind fs loc with
    | none => rw [hfind] at h; cases h
    | some e =>
        rw [hfind] at h
        have hsha : (if !truthyOptStr (some sha) then sha256_digest hash fs loc
            else some sha) = some sha := by
          by_cases ht : truthyOptStr (some sha) = true
          · simp [ht]
          · have ht' : truthyOptStr (some sha) = false := by simpa using ht
            simp [ht', hd]
        rw [hsha] at h
        cases h
        exact ⟨rfl, rfl⟩

/-- Layers built by the verifying docker layer loop carry exactly the
zipped digests and archive locations, each matching the on-disk digest. -/
theorem build_layers_ok (hash : List Nat → String) (fs : PyFS)
    (pairs : List (String × String)) (layers : List LayerM)
    (h : build_layers hash fs true pairs = Except.ok layers) :
    layers.map layer_key = pairs.map (fun p => (some p.2, p.1))
    ∧ ∀ l ∈ layers, ∃ s, l.sha256 = some s
        ∧ sha256_digest hash fs l.archive_location = some s := by
  induction pairs generalizing layers with
  | nil =>
      unfold build_layers at h
      cases h
      exact ⟨rfl, fun l hl => absurd hl (List.not_mem_nil l)⟩
  | cons p rest ih =>
      rcases p with ⟨loc, sha⟩
      unfold build_layers at h
      by_cases hv : (true && (sha256_digest hash fs loc != some sha)) = true
      · rw [if_pos hv] at h
        cases h
      · rw [if_neg hv] at h
        have hd : sha256_digest hash fs loc = some sha := by
          apply eq_of_bne_false
          simpa using hv
        obtain ⟨l, hl, h2⟩ := except_bind_ok h
        obtain ⟨t, ht, h3⟩ := except_map_ok h2
        subst h3
        obtain ⟨hsha, harch⟩ := Layer_init_verified hash fs loc sha l hd hl
        obtain ⟨ihmap, ihall⟩ := ih t ht
        constructor
        · simp only [List.map_cons, ihmap, layer_key, hsha, harch]
        · intro l2 hl2
          rcases List.mem_cons.mp hl2 with rfl | hmem
          · exact ⟨sha, hsha, harch ▸ hd⟩
          · exact ihall l2 hmem

/-- A successful verifying `get_oci_blob` returns the blob path named by
the digest, whose on-disk digest matches. -/
theorem get_oci_blob_ok (hash : List Nat → String) (fs : PyFS)
    (eloc sha loc : String)
    (h : get_oci_blob hash fs eloc sha true = Except.ok loc) :
    loc = os_path_join (os_path_join (os_path_join eloc "blobs") "sha256") sha
    ∧ sha256_digest hash fs loc = some sha := by
  unfold get_oci_blob at h
  by_cases hex : (!os_path_exists fs
      (os_path_join (os_path_join (os_path_join eloc "blobs") "sha256") sha)) = true
  · rw [if_pos hex] at h
    cases h
  · rw [if_neg hex] at h
    by_cases hv : (true && (sha256_digest hash fs
        (os_path_join (os_path_join (os_path_join eloc "blobs") "sha256") sha)
          != some sha)) = true
    · rw [if_pos hv] at h
      cases h
    · rw [if_neg hv] at h
      cases h
      refine ⟨rfl, ?_⟩
      apply eq_of_bne_false
      simpa using hv

/-- Layers built by the verifying OCI layer loop all point at a blob named
by their digest, whose on-disk digest matches. -/
theorem build_oci_layers_ok (hash : List Nat → String) (fs : PyFS)
    (eloc : String) (descs : List Json) (layers : List LayerM)
    (h : build_oci_layers hash fs eloc true descs = Except.ok layers) :
    ∀ l ∈ layers, ∃ s, l.sha256 = some s
      ∧ l.archive_location
          = os_path_join (os_path_join (os_path_join eloc "blobs") "sha256") s
      ∧ sha256_digest hash fs l.archive_location = some s := by
  induction descs generalizing layers with
  | nil =>
      unfold build_oci_layers at h
      cases h
      exact fun l hl => absurd hl (List.not_mem_nil l)
  | cons d rest ih =>
      cases d with
      | obj desc =>
          unfold build_oci_layers at h
          obtain ⟨dig, hdig, h2⟩ := except_bind_ok h
          obtain ⟨loc, hloc, h3⟩ := except_bind_ok h2
          obtain ⟨l, hl, h4⟩ := except_bind_ok h3
          obtain ⟨t, ht, h5⟩ := except_map_ok h4
          subst h5
          obtain ⟨hlociseq, hlocdig⟩ := get_oci_blob_ok hash fs eloc
            (as_bare_id dig) loc hloc
          obtain ⟨hsha, harch⟩ := Layer_init_verified hash fs loc
            (as_bare_id dig) l hlocdig hl
          intro l2 hl2
          rcases List.mem_cons.mp hl2 with rfl | hmem
          · exact ⟨as_bare_id dig, hsha, by rw [harch, hlociseq],
              by rw [harch]; exact hlocdig⟩
          · exact ih t ht l2 hmem
      | str s => unfold build_oci_layers at h; cases h
      | num n => unfold build_oci_layers at h; cases h
      | bool b => unfold build_oci_layers at h; cases h
      | null => unfold build_oci_layers at h; cases h
      | arr xs => unfold build_oci_layers at h; cases h

/-- The history assignment never changes a layer's digest or archive
location (`assign_zip` level). -/
theorem assign_zip_map_key (hs : List (List (String × Json)))
    (layers : List LayerM) :
    (assign_zip hs layers).map layer_key = layers.map layer_key := by
  induction layers generalizing hs with
  | nil => rfl
  | cons l ls ih =>
      rw [assign_zip_cons]
      by_cases hemp : l.is_empty_layer = true
      · rw [if_pos hemp]
        simp only [List.map_cons, ih]
      · rw [if_neg hemp]
        cases hs with
        | nil => rfl
        | cons h hs2 =>
            obtain ⟨_, hsha, harch⟩ := assign_fields_preserves h l
            simp only [List.map_cons, ih, layer_key, hsha, harch]

/-- The history assignment never changes a layer's digest or archive
location. -/
theorem assign_history_map_key (history : List (List (String × Json)))
    (layers : List LayerM) :
    (assign_history_to_layers history layers).map layer_key
      = layers.map layer_key := by
  unfold assign_history_to_layers
  by_cases hhist : history.isEmpty
  · simp [hhist]
  · simp only [hhist, Bool.false_eq_true, if_false]
    by_cases hlen : ((history.filter (fun h =>
        !((pyGet h "empty_layer").getD (Json.bool false)).truthy)).length
          != (layers.filter (fun l => !l.is_empty_layer)).length) = true
    · rw [if_pos hlen]
    · rw [if_neg hlen]
      exact assign_zip_map_key _ layers

/-- The JSON-level history assignment never changes a layer's digest or
archive location. -/
theorem assign_history_json_map_key (history : Json) (layers layers2 : List LayerM)
    (h : assign_history_json history layers = Except.ok layers2) :
    layers2.map layer_key = layers.map layer_key := by
  unfold assign_history_json at h
  by_cases ht : (!history.truthy) = true
  · rw [if_pos ht] at h
    cases h
    rfl
  · rw [if_neg ht] at h
    cases history with
    | arr hs =>
        obtain ⟨hd, hhd, h2⟩ := except_map_ok h
        subst h2
        exact assign_history_map_key hd layers
    | str s => cases h
    | num n => cases h
    | bool b => cases h
    | null => cases h
    | obj kvs => cases h

/-- Transfer of a key-determined property along equal key maps. -/
theorem mem_key_transfer (layers2 layers : List LayerM)
    (hmap : layers2.map layer_key = layers.map layer_key) :
    ∀ l ∈ layers2, ∃ l0 ∈ layers, l0.sha256 = l.sha256
      ∧ l0.archive_location = l.archive_location := by
  intro l hl
  have hk : layer_key l ∈ layers.map layer_key := by
    rw [← hmap]
    exact List.mem_map_of_mem layer_key hl
  obtain ⟨l0, hl0, hkey⟩ := List.mem_map.mp hk
  unfold layer_key at hkey
  exact ⟨l0, hl0, congrArg Prod.fst hkey, congrArg Prod.snd hkey⟩

/-- The second components of a zip are a prefix of the second list. -/
theorem zip_map_some_snd (locs shas : List String) :
    (locs.zip shas).map (fun p => some p.2)
      = (shas.map some).take (locs.zip shas).length := by
  induction locs generalizing shas with
  | nil => rfl
  | cons a as ih =>
      cases shas with
      | nil => rfl
      | cons b bs => simp [List.zip_cons_cons, ih]

/-- The `rootfs.diff_ids` list of the image config stored at
`config_file_loc`, read the way the docker loader reads it (load, lower
keys, check `rootfs.type == 'layers'`). -/
def docker_image_config_diff_ids (fs : PyFS) (config_file_loc : String) :
    Except String (List String) :=
  match load_json fs config_file_loc with
  | none => Except.error ("cannot load config JSON: " ++ config_file_loc)
  | some raw_config =>
      match lower_keys raw_config with
      | Json.obj image_config => docker_rootfs_diff_ids image_config
      | _ => Except.error "AttributeError: config JSON is not a mapping"

/-- C4: CONFIRMED — when the docker loader succeeds with `verify=true`,
the image id is the bare on-disk digest of the config file, the layers
carry exactly the bare `rootfs.diff_ids` in order (truncated by the zip
with the manifest's layer paths), and each layer's stored digest equals
the on-disk digest of its tarball.  Contrapositively, a config-digest or
layer-digest mismatch makes the loader fail. -/
theorem claim_C4_docker_verify_digests (hash : List Nat → String) (fs : PyFS)
    (eloc : String) (mc : Json) (aloc : Option String) (img : ImageM)
    (h : from_docker_manifest_config hash fs eloc mc aloc true = Except.ok img) :
    ∃ loc d diff_ids,
      docker_config_file_loc eloc mc = Except.ok loc
      ∧ sha256_digest hash fs loc = some d
      ∧ img.image_id = as_bare_id d
      ∧ docker_image_config_diff_ids fs loc = Except.ok diff_ids
      ∧ img.layers.map (fun l => l.sha256)
          = (diff_ids.map (fun i => some (as_bare_id i))).take img.layers.length
      ∧ ∀ l ∈ img.layers, ∃ s, l.sha256 = some s
          ∧ sha256_digest hash fs l.archive_location = some s := by
  unfold from_docker_manifest_config at h
  cases hlk : lower_keys mc with
  | str s => rw [hlk] at h; cases h
  | num n => rw [hlk] at h; cases h
  | bool b => rw [hlk] at h; cases h
  | null => rw [hlk] at h; cases h
  | arr xs => rw [hlk] at h; cases h
  | obj mcl =>
  rw [hlk] at h
  try dsimp only at h
  obtain ⟨config_file, hcf, h⟩ := except_bind_ok h
  try dsimp only at h
  by_cases hex : (!os_path_exists fs (os_path_join eloc config_file)) = true
  · rw [if_pos hex] at h; cases h
  · rw [if_neg hex] at h
    cases hdig : sha256_digest hash fs (os_path_join eloc config_file) with
    | none => rw [hdig] at h; cases h
    | some d =>
    rw [hdig] at h
    try dsimp only at h
    by_cases hver : (true && (splitextStem
        (os_path_basename (os_path_join eloc config_file)) != as_bare_id d)) = true
    · rw [if_pos hver] at h; cases h
    · rw [if_neg hver] at h
      have himgid : splitextStem (os_path_basename (os_path_join eloc config_file))
          = as_bare_id d := eq_of_bne_false (by simpa using hver)
      obtain ⟨layer_paths, hlp, h⟩ := except_bind_ok h
      try dsimp only at h
      cases hload : load_json fs (os_path_join eloc config_file) with
      | none => rw [hload] at h; cases h
      | some raw =>
      rw [hload] at h
      try dsimp only at h
      cases hlk2 : lower_keys raw with
      | str s => rw [hlk2] at h; cases h
      | num n => rw [hlk2] at h; cases h
      | bool b => rw [hlk2] at h; cases h
      | null => rw [hlk2] at h; cases h
      | arr xs => rw [hlk2] at h; cases h
      | obj image_config =>
      rw [hlk2] at h
      try dsimp only at h
      obtain ⟨diff_ids, hdiff, h⟩ := except_bind_ok h
      try dsimp only at h
      obtain ⟨layers, hbuild, h⟩ := except_bind_ok h
      try dsimp only at h
      obtain ⟨layers2, hassign, h⟩ := except_bind_ok h
      try dsimp only at h
      obtain ⟨cf, hcfg, h⟩ := except_bind_ok h
      try dsimp only at h
      unfold Image_init at h
      by_cases he : (eloc == "") = true
      · rw [if_pos he] at h; cases h
      · rw [if_neg he] at h
        cases h
        have hkey : layers2.map layer_key
            = ((layer_paths.map (os_path_join eloc)).zip
                (diff_ids.map as_bare_id)).map (fun p => (some p.2, p.1)) :=
          (assign_history_json_map_key _ layers layers2 hassign).trans
            (build_layers_ok hash fs _ layers hbuild).1
        refine ⟨os_path_join eloc config_file, d, diff_ids, ?_, hdig, himgid, ?_, ?_, ?_⟩
        · unfold docker_config_file_loc
          rw [hlk]
          dsimp only
          rw [hcf]
          rfl
        · unfold docker_image_config_diff_ids
          rw [hload]
          dsimp only
          rw [hlk2]
          exact hdiff
        · have h0 : layers2.map (fun l => l.sha256)
              = (layers2.map layer_key).map (fun p => p.1) := by
            simp [List.map_map, layer_key]
          have hlen2 : layers2.length
              = ((layer_paths.map (os_path_join eloc)).zip
                  (diff_ids.map as_bare_id)).length := by
            have := congrArg List.length hkey
            simpa using this
          rw [h0, hkey]
          have h1 : (((layer_paths.map (os_path_join eloc)).zip
              (diff_ids.map as_bare_id)).map (fun p => (some p.2, p.1))).map
                (fun p => p.1)
              = ((layer_paths.map (os_path_join eloc)).zip
                  (diff_ids.map as_bare_id)).map (fun p => some p.2) := by
            simp [List.map_map]
          rw [h1, zip_map_some_snd, ← hlen2]
          simp only [List.map_map]
          rfl
        · intro l hl
          obtain ⟨l0, hl0, hsha, harch⟩ := mem_key_transfer layers2 layers
            ((assign_history_json_map_key _ layers layers2 hassign)) l hl
          obtain ⟨s, hs, hd2⟩ := (build_layers_ok hash fs _ layers hbuild).2 l0 hl0
          exact ⟨s, hsha ▸ hs, harch ▸ hd2⟩

/-- Layers of one successfully loaded OCI image (with `verify=true`) carry
the bare manifest-layer digest and point at the blob it names. -/
theorem oci_image_layers_ok (hash : List Nat → String) (fs : PyFS)
    (eloc : String) (aloc : Option String) (md : Json) (img : ImageM)
    (h : oci_image_from_manifest_data hash fs eloc aloc true md = Except.ok img) :
    ∀ l ∈ img.layers, ∃ s, l.sha256 = some s
      ∧ l.archive_location
          = os_path_join (os_path_join (os_path_join eloc "blobs") "sha256") s
      ∧ sha256_digest hash fs l.archive_location = some s := by
  cases md with
  | str s => unfold oci_image_from_manifest_data at h; cases h
  | num n => unfold oci_image_from_manifest_data at h; cases h
  | bool b => unfold oci_image_from_manifest_data at h; cases h
  | null => unfold oci_image_from_manifest_data at h; cases h
  | arr xs => unfold oci_image_from_manifest_data at h; cases h
  | obj md =>
  unfold oci_image_from_manifest_data at h
  try dsimp only at h
  cases hmt : pyGet md "mediatype" with
  | none => rw [hmt] at h; cases h
  | some v =>
  rw [hmt] at h
  cases v with
  | num n => try dsimp only at h
             cases h
  | bool b => try dsimp only at h
              cases h
  | null => try dsimp only at h
            cases h
  | arr xs => try dsimp only at h
              cases h
  | obj kvs => try dsimp only at h
               cases h
  | str mt =>
  try dsimp only at h
  by_cases hmt2 : (mt != "application/vnd.oci.image.manifest.v1+json") = true
  · rw [if_pos hmt2] at h; cases h
  · rw [if_neg hmt2] at h
    obtain ⟨mdig, hmdig, h⟩ := except_bind_ok h
    try dsimp only at h
    obtain ⟨mloc, hmloc, h⟩ := except_bind_ok h
    try dsimp only at h
    cases hmload : load_json fs mloc with
    | none => rw [hmload] at h; cases h
    | some mjson =>
    rw [hmload] at h
    cases mjson with
    | str s => try dsimp only at h
               cases h
    | num n => try dsimp only at h
               cases h
    | bool b => try dsimp only at h
                cases h
    | null => try dsimp only at h
              cases h
    | arr xs => try dsimp only at h
                cases h
    | obj manifest =>
    try dsimp only at h
    obtain ⟨config_desc, hcd, h⟩ := except_bind_ok h
    try dsimp only at h
    obtain ⟨cdig, hcdig, h⟩ := except_bind_ok h
    try dsimp only at h
    obtain ⟨cloc, hcloc, h⟩ := except_bind_ok h
    try dsimp only at h
    cases hcload : load_json fs cloc with
    | none => rw [hcload] at h; cases h
    | some config =>
    rw [hcload] at h
    try dsimp only at h
    cases hlay : pyGet manifest "layers" with
    | none => rw [hlay] at h; cases h
    | some lv =>
    rw [hlay] at h
    cases lv with
    | str s => try dsimp only at h
               cases h
    | num n => try dsimp only at h
               cases h
    | bool b => try dsimp only at h
                cases h
    | null => try dsimp only at h
              cases h
    | obj kvs => try dsimp only at h
                 cases h
    | arr layer_descs =>
    try dsimp only at h
    obtain ⟨layers, hbuild, h⟩ := except_bind_ok h
    try dsimp only at h
    cases config with
    | str s => cases h
    | num n => cases h
    | bool b => cases h
    | null => cases h
    | arr xs => cases h
    | obj ckvs =>
    try dsimp only at h
    obtain ⟨layers2, hassign, h⟩ := except_bind_ok h
    try dsimp only at h
    obtain ⟨cf, hcf, h⟩ := except_bind_ok h
    try dsimp only at h
    unfold Image_init at h
    by_cases he : (eloc == "") = true
    · rw [if_pos he] at h; cases h
    · rw [if_neg he] at h
      cases h
      intro l hl
      obtain ⟨l0, hl0, hsha, harch⟩ := mem_key_transfer layers2 layers
        (assign_history_json_map_key _ layers layers2 hassign) l hl
      obtain ⟨s, hs, hloc0, hd0⟩ := build_oci_layers_ok hash fs eloc
        layer_descs layers hbuild l0 hl0
      exact ⟨s, hsha ▸ hs, harch ▸ hloc0, harch ▸ hd0⟩

/-- C5 as amended: for every image loaded from an OCI layout with
`verify=true`, each constructed layer's `sha256` is the bare digest of the
blob referenced by the manifest's `layers` list (the blob address), its
`archive_location` is exactly that blob file under `blobs/sha256/`, and the
blob's on-disk digest matches.  The config's `rootfs.diff_ids` are never
consulted, so `sha256` is the compressed-blob digest, not the diff id (see
the counterexample). -/
theorem claim_C5_oci_layer_blob_digests (hash : List Nat → String) (fs : PyFS)
    (eloc : String) (aloc : Option String) (imgs : List ImageM)
    (h : get_oci_images_from_dir hash fs eloc aloc true = Except.ok imgs) :
    ∀ img ∈ imgs, ∀ l ∈ img.layers, ∃ s, l.sha256 = some s
      ∧ l.archive_location
          = os_path_join (os_path_join (os_path_join eloc "blobs") "sha256") s
      ∧ sha256_digest hash fs l.archive_location = some s := by
  unfold get_oci_images_from_dir at h
  try dsimp only at h
  cases hidx : load_json fs (os_path_join eloc "index.json") with
  | none => rw [hidx] at h; cases h
  | some index0 =>
  rw [hidx] at h
  try dsimp only at h
  cases hlki : lower_keys index0 with
  | str s => rw [hlki] at h; cases h
  | num n => rw [hlki] at h; cases h
  | bool b => rw [hlki] at h; cases h
  | null => rw [hlki] at h; cases h
  | arr xs => rw [hlki] at h; cases h
  | obj index =>
  rw [hlki] at h
  try dsimp only at h
  cases hsv : pyGet index "schemaversion" with
  | none => rw [hsv] at h; cases h
  | some sv =>
  rw [hsv] at h
  cases sv with
  | str s => try dsimp only at h
             cases h
  | bool b => try dsimp only at h
              cases h
  | null => try dsimp only at h
            cases h
  | arr xs => try dsimp only at h
              cases h
  | obj kvs => try dsimp only at h
               cases h
  | num n =>
  try dsimp only at h
  by_cases hn : (n != 2) = true
  · rw [if_pos hn] at h; cases h
  · rw [if_neg hn] at h
    cases hms : pyGet index "manifests" with
    | none => rw [hms] at h; cases h
    | some mv =>
    rw [hms] at h
    cases mv with
    | str s =>
        try dsimp only at h
        by_cases hse : (s == "") = true
        · rw [if_pos hse] at h
          cases h
          intro img himg
          exact absurd himg (List.not_mem_nil img)
        · rw [if_neg hse] at h; cases h
    | num n2 => try dsimp only at h
                cases h
    | bool b => try dsimp only at h
                cases h
    | null => try dsimp only at h
              cases h
    | obj kvs =>
        try dsimp only at h
        by_cases hke : kvs.isEmpty = true
        · rw [if_pos hke] at h
          cases h
          intro img himg
          exact absurd himg (List.not_mem_nil img)
        · rw [if_neg hke] at h; cases h
    | arr ms =>
    try dsimp only at h
    intro img himg
    obtain ⟨md, hmd, hok⟩ := mapExceptList_ok_mem _ ms imgs h img himg
    exact oci_image_layers_ok hash fs eloc aloc md img hok

/-- Toy hash for the C4 witness: maps the config bytes to `h1` and the
layer bytes to `h2`. -/
def dockerHashW : List Nat → String := fun b =>
  if b == [1] then "h1" else if b == [7, 7] then "h2" else "hx"

/-- Manifest entry fixture for the C4 witness. -/
def dockerMcW : Json :=
  Json.obj [("Config", Json.str "h1.json"),
    ("Layers", Json.arr [Json.str "l1/layer.tar"]),
    ("RepoTags", Json.arr [Json.str "user/image:v1"])]

/-- Image config fixture for the C4 witness. -/
def dockerCfgW : Json :=
  Json.obj [("rootfs", Json.obj [("type", Json.str "layers"),
      ("diff_ids", Json.arr [Json.str "sha256:h2"])]),
    ("history", Json.arr [Json.obj [("created_by", Json.str "RUN x")]]),
    ("os", Json.str "linux")]

/-- Filesystem fixture for the C4 witness: a docker-save layout whose
config file and layer tarball digests are consistent under
`dockerHashW`. -/
def dockerFsW : PyFS :=
  { files := [
      ("/img/manifest.json",
        { bytes := [0], json := some (Json.arr [dockerMcW]), tar := none }),
      ("/img/h1.json", { bytes := [1], json := some dockerCfgW, tar := none }),
      ("/img/l1/layer.tar", { bytes := [7, 7], json := none, tar := none })],
    dirs := ["/img"] }

/-- Witness for C4: the docker loader succeeds on the fixture with
`verify=true` and the digest properties hold there. -/
theorem claim_C4_witness :
    ∃ img, from_docker_manifest_config dockerHashW dockerFsW "/img" dockerMcW
        none true = Except.ok img
      ∧ ∃ loc d diff_ids,
        docker_config_file_loc "/img" dockerMcW = Except.ok loc
        ∧ sha256_digest dockerHashW dockerFsW loc = some d
        ∧ img.image_id = as_bare_id d
        ∧ docker_image_config_diff_ids dockerFsW loc = Except.ok diff_ids
        ∧ img.layers.map (fun l => l.sha256)
            = (diff_ids.map (fun i => some (as_bare_id i))).take img.layers.length
        ∧ ∀ l ∈ img.layers, ∃ s, l.sha256 = some s
            ∧ sha256_digest dockerHashW dockerFsW l.archive_location = some s :=
  ⟨_, rfl, claim_C4_docker_verify_digests dockerHashW dockerFsW "/img" dockerMcW
    none _ rfl⟩

/-- Toy hash for the C5 fixtures: maps each blob's bytes to its name. -/
def ociHashCE : List Nat → String := fun b =>
  if b == [2] then "MANI" else if b == [1] then "CFG"
  else if b == [3] then "BLOB" else "zz"

/-- OCI index fixture. -/
def ociIndexCE : Json :=
  Json.obj [("schemaVersion", Json.num 2),
    ("manifests", Json.arr [Json.obj [
      ("mediatype", Json.str "application/vnd.oci.image.manifest.v1+json"),
      ("digest", Json.str "sha256:MANI")]])]

/-- OCI manifest fixture: the layer blob digest is `BLOB`. -/
def ociManifestCE : Json :=
  Json.obj [("config", Json.obj [("digest", Json.str "sha256:CFG")]),
    ("layers", Json.arr [Json.obj [("digest", Json.str "sha256:BLOB")]])]

/-- OCI image config pairs: `rootfs.diff_ids` names `DIFF`, not `BLOB`. -/
def ociConfigKvsCE : List (String × Json) :=
  [("rootfs", Json.obj [("type", Json.str "layers"),
      ("diff_ids", Json.arr [Json.str "sha256:DIFF"])]),
   ("history", Json.arr [])]

/-- OCI image config fixture. -/
def ociConfigCE : Json := Json.obj ociConfigKvsCE

/-- Filesystem fixture for the C5 theorems: a complete OCI layout whose
blob digests are consistent under `ociHashCE`, with a diff id `DIFF`
different from the layer blob digest `BLOB`. -/
def ociFsCE : PyFS :=
  { files := [
      ("/oci/index.json", { bytes := [9], json := some ociIndexCE, tar := none }),
      ("/oci/blobs/sha256/MANI",
        { bytes := [2], json := some ociManifestCE, tar := none }),
      ("/oci/blobs/sha256/CFG",
        { bytes := [1], json := some ociConfigCE, tar := none }),
      ("/oci/blobs/sha256/BLOB", { bytes := [3], json := none, tar := none })],
    dirs := ["/oci", "/oci/blobs", "/oci/blobs/sha256"] }

/-- C5: REFUTED as stated — the OCI loader builds each layer from the
manifest's layer blob digest and never reads the config's
`rootfs.diff_ids`: on a layout whose config lists diff id `DIFF` while the
manifest references blob `BLOB`, the constructed layer's `sha256` is
`BLOB`, not the bare diff id. -/
theorem claim_C5_counterexample :
    ∃ img layer,
      get_oci_images_from_dir ociHashCE ociFsCE "/oci" none true
        = Except.ok [img]
      ∧ img.layers = [layer]
      ∧ layer.sha256 = some "BLOB"
      ∧ load_json ociFsCE "/oci/blobs/sha256/CFG" = some (Json.obj ociConfigKvsCE)
      ∧ docker_rootfs_diff_ids ociConfigKvsCE = Except.ok ["sha256:DIFF"]
      ∧ some (as_bare_id "sha256:DIFF") ≠ layer.sha256 :=
  ⟨_, _, rfl, rfl, rfl, rfl, rfl, by decide⟩

/-- Witness for the amended C5 on the same OCI fixture. -/
theorem claim_C5_witness :
    ∃ imgs, get_oci_images_from_dir ociHashCE ociFsCE "/oci" none true
        = Except.ok imgs
      ∧ ∀ img ∈ imgs, ∀ l ∈ img.layers, ∃ s, l.sha256 = some s
          ∧ l.archive_location
              = os_path_join (os_path_join (os_path_join "/oci" "blobs") "sha256") s
          ∧ sha256_digest ociHashCE ociFsCE l.archive_location = some s :=
  ⟨_, rfl, claim_C5_oci_layer_blob_digests ociHashCE ociFsCE "/oci" none _ rfl⟩

end ContainerInspector
